import Mathlib

/-!
Verification of the agentkits-memory hook pipeline against its
natural-language specification.

The TypeScript sources are shallowly embedded: JavaScript strings are
modelled as `List Char`, JSON values as the inductive `Json`, the
SQLite-backed tables of `MemoryHookService` as lists of row structures,
and `Date.now()` / `process.cwd()` as explicit parameters.  Each
definition mirrors one function of the source tree
(`src/hooks/types.ts`, `src/hooks/service.ts`, `src/hooks/*.ts`,
`src/hooks/ai-enrichment.ts`, `src/migration.ts`).
-/

namespace AgentKits


/-- JavaScript strings are modelled as lists of characters
(`s.substring(0, n)` becomes `List.take n`, `a + b` becomes `++`). -/
abbrev JStr := List Char

/-- The literal truncation marker appended by `truncate` in
`src/hooks/types.ts`. -/
def marker : JStr := "...[truncated]".toList

/-- `truncate(str, maxLength)` from `src/hooks/types.ts`:
`if (str.length <= maxLength) return str;
 return str.substring(0, maxLength) + '...[truncated]';` -/
def truncateStr (str : JStr) (maxLength : Nat) : JStr :=
  if str.length ≤ maxLength then str
  else str.take maxLength ++ marker

/-- Observation classification from `src/hooks/types.ts`
(`ObservationType`). -/
inductive ObsType where
  | read
  | write
  | execute
  | search
  | other
deriving DecidableEq, Repr

/-- The four tool lists hard-coded in `getObservationType`
(`src/hooks/types.ts`). -/
def readTools : List JStr := ["Read".toList, "Glob".toList, "Grep".toList, "LS".toList]

def writeTools : List JStr := ["Write".toList, "Edit".toList, "NotebookEdit".toList]

def executeTools : List JStr := ["Bash".toList, "Task".toList, "Skill".toList]

def searchTools : List JStr := ["WebSearch".toList, "WebFetch".toList]

/-- `getObservationType(toolName)` from `src/hooks/types.ts`. -/
def getObservationType (toolName : JStr) : ObsType :=
  if toolName ∈ readTools then .read
  else if toolName ∈ writeTools then .write
  else if toolName ∈ executeTools then .execute
  else if toolName ∈ searchTools then .search
  else .other

/-- Path-separator predicate of the regex `/[/\\]/` used by
`getProjectName`. -/
def isSep (c : Char) : Bool := c = '/' || c = '\\'

/-- JavaScript `String.prototype.split` on a character class: keeps
empty fragments between consecutive separators, and splitting the empty
string yields one empty fragment. -/
def jsSplit (sep : Char → Bool) : JStr → List JStr
  | [] => [[]]
  | c :: cs =>
    if sep c then [] :: jsSplit sep cs
    else
      match jsSplit sep cs with
      | r :: rs => (c :: r) :: rs
      | [] => [[c]]

/-- `getProjectName(cwd)` from `src/hooks/types.ts`:
`const parts = cwd.split(/[/\\]/); return parts[parts.length - 1] || 'unknown';` -/
def getProjectName (cwd : JStr) : JStr :=
  if ((jsSplit isSep cwd).getLast?).getD [] = [] then "unknown".toList
  else ((jsSplit isSep cwd).getLast?).getD []

/-- Spec-side description of "the last path segment": the maximal
separator-free suffix of the path, read off directly from the string. -/
def lastSegment (p : JStr) : JStr :=
  (p.reverse.takeWhile (fun c => ¬ isSep c)).reverse

/-! ### JSON values and `JSON.stringify`

Tool inputs and responses arrive from `JSON.parse` of the hook stdin, so
they are JSON values.  `jsonStringify` models `JSON.stringify` (compact
form, no whitespace); JSON numbers are modelled as integers, which is
faithful for the single property used about the rendering (its last
character is a digit). -/

inductive Json where
  | null
  | bool (b : Bool)
  | num (n : Int)
  | str (s : JStr)
  | arr (elems : List Json)
  | obj (fields : List (JStr × Json))
deriving Repr

/-- Decimal digit characters for number rendering. -/
def digCh : Nat → Char
  | 0 => '0'
  | 1 => '1'
  | 2 => '2'
  | 3 => '3'
  | 4 => '4'
  | 5 => '5'
  | 6 => '6'
  | 7 => '7'
  | 8 => '8'
  | _ => '9'

/-- Decimal rendering of a natural number, most significant digit
first; structurally recursive on a fuel bound so that it reduces in the
kernel (`n + 1` fuel always suffices since `n / 10 < n` below 10). -/
def natCharsAux : Nat → Nat → List Char
  | 0, _ => []
  | fuel + 1, n => if n < 10 then [digCh n] else natCharsAux fuel (n / 10) ++ [digCh (n % 10)]

def natChars (n : Nat) : List Char := natCharsAux (n + 1) n

/-- Decimal rendering of an integer. -/
def intChars (n : Int) : List Char :=
  if n < 0 then '-' :: natChars (-n).toNat else natChars n.toNat

/-- JSON string escaping of one character (quote, backslash and the
common control characters; all others are emitted verbatim). -/
def escChar (c : Char) : List Char :=
  if c = '"' then ['\\', '"']
  else if c = '\\' then ['\\', '\\']
  else if c = '\n' then ['\\', 'n']
  else if c = '\r' then ['\\', 'r']
  else if c = '\t' then ['\\', 't']
  else [c]

/-- Rendering of a JSON string literal: a quoted, escaped body. -/
def stringifyStr (s : JStr) : JStr :=
  '"' :: s.flatMap escChar ++ ['"']

mutual

/-- `JSON.stringify` on JSON values (compact rendering). -/
def jsonStringify : Json → JStr
  | .null => "null".toList
  | .bool true => "true".toList
  | .bool false => "false".toList
  | .num n => intChars n
  | .str s => stringifyStr s
  | .arr xs => '[' :: stringifyElems xs ++ [']']
  | .obj fs => '{' :: stringifyFields fs ++ ['}']

/-- Comma-separated rendering of array elements. -/
def stringifyElems : List Json → JStr
  | [] => []
  | [x] => jsonStringify x
  | x :: y :: xs => jsonStringify x ++ ',' :: stringifyElems (y :: xs)

/-- Comma-separated rendering of object fields (`"key":value`). -/
def stringifyFields : List (JStr × Json) → JStr
  | [] => []
  | [(k, v)] => stringifyStr k ++ ':' :: jsonStringify v
  | (k, v) :: f :: fs => stringifyStr k ++ ':' :: jsonStringify v ++ ',' :: stringifyFields (f :: fs)

end

/-- JavaScript truthiness of a JSON value (`x || y` picks `y` when `x`
is falsy). -/
def jsTruthy : Json → Bool
  | .null => false
  | .bool b => b
  | .num n => n != 0
  | .str s => s != []
  | .arr _ => true
  | .obj _ => true

/-- `x || {}` on an optional JSON value (`undefined` is `none`). -/
def jsOrEmptyObj (x : Option Json) : Json :=
  match x with
  | some v => if jsTruthy v then v else Json.obj []
  | none => Json.obj []

/-! ### Hook input normalization (`parseHookInput`, `src/hooks/types.ts`)

`JSON.parse` of the stdin either fails (modelled as `none`) or yields a
value whose optional fields are read off; `process.cwd()` and
`Date.now()` are explicit parameters. -/

/-- The raw envelope read from stdin (`ClaudeCodeHookInput`). -/
structure ClaudeCodeHookInput where
  session_id : Option JStr := none
  cwd : Option JStr := none
  prompt : Option JStr := none
  tool_name : Option JStr := none
  tool_input : Option Json := none
  tool_result : Option Json := none
  transcript_path : Option JStr := none
  stop_reason : Option JStr := none

/-- The normalized record handed to the handlers
(`NormalizedHookInput`). -/
structure NormalizedHookInput where
  sessionId : JStr
  cwd : JStr
  project : JStr
  prompt : Option JStr := none
  toolName : Option JStr := none
  toolInput : Option Json := none
  toolResponse : Option Json := none
  transcriptPath : Option JStr := none
  stopReason : Option JStr := none
  timestamp : Nat

/-- `x || y` for an optional JavaScript string (absent and empty are
falsy). -/
def jsOrStr (x : Option JStr) (y : JStr) : JStr :=
  match x with
  | some s => if s = [] then y else s
  | none => y

/-- The synthesized session id `` `session_${Date.now()}` ``. -/
def sessionIdFallback (now : Nat) : JStr := "session_".toList ++ natChars now

/-- `parseHookInput(stdin)` from `src/hooks/types.ts`.  The `none` case
is the `catch` branch taken on malformed or empty stdin. -/
def parseHookInput (parsed : Option ClaudeCodeHookInput) (processCwd : JStr) (now : Nat) :
    NormalizedHookInput :=
  match parsed with
  | some raw =>
    let cwd := jsOrStr raw.cwd processCwd
    { sessionId := jsOrStr raw.session_id (sessionIdFallback now)
      cwd := cwd
      project := getProjectName cwd
      prompt := raw.prompt
      toolName := raw.tool_name
      toolInput := raw.tool_input
      toolResponse := raw.tool_result
      transcriptPath := raw.transcript_path
      stopReason := raw.stop_reason
      timestamp := now }
  | none =>
    { sessionId := sessionIdFallback now
      cwd := processCwd
      project := getProjectName processCwd
      timestamp := now }

/-! ### AI enrichment (`src/hooks/ai-enrichment.ts`) -/

/-- The enriched observation data returned by the oracle. -/
structure EnrichedObservation where
  subtitle : JStr
  narrative : JStr
  facts : List JStr
  concepts : List JStr
deriving DecidableEq

mutual

/-- JavaScript `String(x)` coercion, used by `parseAIResponse` on the
entries of `facts` and `concepts`. -/
def jsToString : Json → JStr
  | .null => "null".toList
  | .bool true => "true".toList
  | .bool false => "false".toList
  | .num n => intChars n
  | .str s => s
  | .arr xs => jsToStringElems xs
  | .obj _ => "[object Object]".toList

/-- `Array.prototype.toString`: comma-joined elements, with `null`
rendered as the empty string. -/
def jsToStringElems : List Json → JStr
  | [] => []
  | [.null] => []
  | [x] => jsToString x
  | .null :: y :: xs => ',' :: jsToStringElems (y :: xs)
  | x :: y :: xs => jsToString x ++ ',' :: jsToStringElems (y :: xs)

end

/-- Field lookup on a JSON object; `none` on non-objects and missing
keys (JavaScript `undefined`). -/
def jsonGet (j : Json) (k : JStr) : Option Json :=
  match j with
  | .obj fs => (fs.find? (fun f => decide (f.1 = k))).map (fun f => f.2)
  | _ => none

/-- `parseAIResponse` from `src/hooks/ai-enrichment.ts`, applied to the
`JSON.parse` result of the cleaned response text (`none` when parsing
failed).  Validates the four fields and caps them:
subtitle ≤ 200, narrative ≤ 500, facts ≤ 5 × 200, concepts ≤ 5 × 50. -/
def parseAIResponse (parsed : Option Json) : Option EnrichedObservation :=
  match parsed with
  | none => none
  | some p =>
    match jsonGet p "subtitle".toList, jsonGet p "narrative".toList,
          jsonGet p "facts".toList, jsonGet p "concepts".toList with
    | some (.str sub), some (.str narr), some (.arr facts), some (.arr concepts) =>
      some { subtitle := sub.take 200
             narrative := narr.take 500
             facts := (facts.take 5).map (fun f => (jsToString f).take 200)
             concepts := (concepts.take 5).map (fun c => (jsToString c).take 50) }
    | _, _, _, _ => none

/-- The possible behaviors of one oracle call in `enrichWithAI`: the SDK
may be unavailable or disabled, the query may throw, the 15 s timeout
may fire first (real time is modelled as this abstract outcome), the
stream may produce no result text, or it may answer with text whose
`JSON.parse` result is carried by `answered`. -/
inductive OracleOutcome where
  | unavailable
  | thrown
  | timedOut
  | emptyResult
  | answered (parsedResponse : Option Json)

/-- `enrichWithAI` from `src/hooks/ai-enrichment.ts`: every failure mode
collapses to `none` (the caller's template fallback); an answer goes
through `parseAIResponse`. -/
def enrichWithAI : OracleOutcome → Option EnrichedObservation
  | .unavailable => none
  | .thrown => none
  | .timedOut => none
  | .emptyResult => none
  | .answered r => parseAIResponse r

/-- The deterministic template extractors `generateObservationSubtitle`,
`generateObservationNarrative`, `extractFacts` and `extractConcepts`
imported by `src/hooks/service.ts`.  The current revision of the module
defining them is not part of the snapshot, so they are kept abstract:
the claims only compare stored fields against their values. -/
structure Templates where
  subtitle : JStr → Option Json → Option Json → JStr
  narrative : JStr → Option Json → Option Json → JStr
  facts : JStr → Option Json → Option Json → List JStr
  concepts : JStr → Option Json → Option Json → List JStr

/-- A trivial instantiation of the template extractors, used to run the
model on concrete inputs. -/
def defaultTemplates : Templates :=
  { subtitle := fun _ _ _ => []
    narrative := fun _ _ _ => []
    facts := fun _ _ _ => []
    concepts := fun _ _ _ => [] }

/-- The four enrichment fields as combined by `storeObservation`:
`aiResult?.subtitle || template`, `aiResult?.narrative || template`,
`aiResult?.facts || template`, `aiResult?.concepts || template`
(arrays are always truthy in JavaScript, empty strings are not). -/
structure EnrichmentFields where
  subtitle : JStr
  narrative : JStr
  facts : List JStr
  concepts : List JStr
deriving DecidableEq

def combineEnrichment (ai : Option EnrichedObservation)
    (tSub tNarr : JStr) (tFacts tConcepts : List JStr) : EnrichmentFields :=
  match ai with
  | some r =>
    { subtitle := if r.subtitle = [] then tSub else r.subtitle
      narrative := if r.narrative = [] then tNarr else r.narrative
      facts := r.facts
      concepts := r.concepts }
  | none =>
    { subtitle := tSub, narrative := tNarr, facts := tFacts, concepts := tConcepts }

/-! ### MemoryHookService (`src/hooks/service.ts`)

The four SQLite tables are modelled as lists of rows in insertion
(rowid) order.  `Date.now()` is an explicit parameter of every
operation. -/

inductive SessionStatus where
  | active
  | completed
  | abandoned
deriving DecidableEq, Repr

/-- A row of the `sessions` table. -/
structure SessionRow where
  sessionId : JStr
  project : JStr
  prompt : JStr
  startedAt : Nat
  endedAt : Option Nat := none
  observationCount : Nat := 0
  summary : Option JStr := none
  status : SessionStatus := .active
deriving DecidableEq, Repr

/-- A row of the `user_prompts` table. -/
structure PromptRow where
  sessionId : JStr
  promptNumber : Nat
  promptText : JStr
  createdAt : Nat
deriving DecidableEq, Repr

/-- A row of the `observations` table.  `tool_input` is stored as
`JSON.stringify(toolInput || {})` and re-parsed by every reader, so the
row carries the parsed value `toolInput` directly; `toolResponse` is the
stored (truncated) rendering. -/
structure ObsRow where
  sessionId : JStr
  project : JStr
  toolName : JStr
  toolInput : Json
  toolResponse : JStr
  cwd : JStr
  timestamp : Nat
  type : ObsType
  title : JStr
  promptNumber : Option Nat
  filesRead : List JStr
  filesModified : List JStr
  subtitle : JStr
  narrative : JStr
  facts : List JStr
  concepts : List JStr

/-- A row of the `session_summaries` table. -/
structure SummaryRow where
  sessionId : JStr
  project : JStr
  request : JStr
  completed : JStr
  filesRead : List JStr
  filesModified : List JStr
  nextSteps : JStr
  notes : JStr
  promptNumber : Nat
  createdAt : Nat
deriving DecidableEq, Repr

/-- The structured summary produced by `generateStructuredSummary`
(`Omit<SessionSummary, 'id' | 'createdAt'>`). -/
structure SummaryData where
  sessionId : JStr
  project : JStr
  request : JStr
  completed : JStr
  filesRead : List JStr
  filesModified : List JStr
  nextSteps : JStr
  notes : JStr
  promptNumber : Nat
deriving DecidableEq, Repr

/-- The persistent state of `MemoryHookService`. -/
structure ServiceState where
  sessions : List SessionRow := []
  prompts : List PromptRow := []
  observations : List ObsRow := []
  summaries : List SummaryRow := []

/-- The empty database created by `initialize()`. -/
def initialState : ServiceState := {}

/-- `getSession(sessionId)`: `SELECT * FROM sessions WHERE session_id = ?`
(at most one row by the UNIQUE constraint). -/
def getSession (st : ServiceState) (sessionId : JStr) : Option SessionRow :=
  st.sessions.find? (fun s => decide (s.sessionId = sessionId))

/-- `initSession(sessionId, project, prompt?)`: idempotent insert of an
`active` session with `observation_count = 0`. -/
def initSession (st : ServiceState) (sessionId project : JStr) (prompt : Option JStr)
    (now : Nat) : ServiceState :=
  match getSession st sessionId with
  | some _ => st
  | none =>
    { st with sessions := st.sessions ++
        [{ sessionId := sessionId, project := project, prompt := prompt.getD []
           startedAt := now }] }

/-- `getPromptNumber(sessionId)`:
`SELECT COUNT(*) FROM user_prompts WHERE session_id = ?`. -/
def getPromptNumber (st : ServiceState) (sessionId : JStr) : Nat :=
  (st.prompts.filter (fun p => decide (p.sessionId = sessionId))).length

/-- `saveUserPrompt(sessionId, project, promptText)`: ensures the
session, then `INSERT OR IGNORE` of the next prompt number. -/
def saveUserPrompt (st : ServiceState) (sessionId project promptText : JStr)
    (now : Nat) : ServiceState :=
  let st1 := initSession st sessionId project (some promptText) now
  let n := getPromptNumber st1 sessionId + 1
  if st1.prompts.any (fun p => decide (p.sessionId = sessionId ∧ p.promptNumber = n)) then st1
  else { st1 with prompts := st1.prompts ++
          [{ sessionId := sessionId, promptNumber := n, promptText := promptText
             createdAt := now }] }

/-- String field access `input?.k` on an optional JSON value, as used by
the title templates (non-string and missing fields read as empty). -/
def getStrField (j : Option Json) (k : JStr) : JStr :=
  match j with
  | some v =>
    match jsonGet v k with
    | some (.str s) => s
    | _ => []
  | none => []

/-- String field access on a (parsed) JSON value. -/
def getStrFieldJ (j : Json) (k : JStr) : JStr :=
  match jsonGet j k with
  | some (.str s) => s
  | _ => []

/-- `a || b` on JavaScript strings. -/
def jsOrS (a b : JStr) : JStr := if a = [] then b else a

/-- `generateObservationTitle(toolName, toolInput)` from
`src/hooks/types.ts`.  (The branch re-parsing a string-typed
`toolInput` is not modelled: hook inputs arrive already parsed.) -/
def generateObservationTitle (toolName : JStr) (toolInput : Option Json) : JStr :=
  let pathOr := fun (dflt : JStr) =>
    jsOrS (jsOrS (getStrField toolInput "file_path".toList)
                 (getStrField toolInput "path".toList)) dflt
  if toolName = "Read".toList then "Read ".toList ++ pathOr "file".toList
  else if toolName = "Write".toList then "Write ".toList ++ pathOr "file".toList
  else if toolName = "Edit".toList then "Edit ".toList ++ pathOr "file".toList
  else if toolName = "Bash".toList then
    let cmd := getStrField toolInput "command".toList
    "Run: ".toList ++ cmd.take 50 ++ (if 50 < cmd.length then "...".toList else [])
  else if toolName = "Glob".toList then
    "Find ".toList ++ jsOrS (getStrField toolInput "pattern".toList) "files".toList
  else if toolName = "Grep".toList then
    "Search \"".toList ++ getStrField toolInput "pattern".toList ++ "\"".toList
  else if toolName = "Task".toList then
    "Task: ".toList ++ jsOrS (getStrField toolInput "description".toList) "agent".toList
  else if toolName = "WebSearch".toList then
    "Search: ".toList ++ getStrField toolInput "query".toList
  else if toolName = "WebFetch".toList then
    "Fetch: ".toList ++ getStrField toolInput "url".toList
  else toolName

/-- Modelled from the spec: `extractFilePaths` is imported by
`src/hooks/service.ts` from the hooks `types` module, whose current
revision is missing from the snapshot.  Spec §4.4: "`filesRead` ←
entries from read-class tools whose input carries `file_path` or
`path`; `filesModified` ← same for write-class tools.  Extraction is
best-effort and swallows parse errors." -/
def extractFilePaths (toolName : JStr) (toolInput : Option Json) : List JStr × List JStr :=
  let p := jsOrS (getStrField toolInput "file_path".toList)
                 (getStrField toolInput "path".toList)
  if p = [] then ([], [])
  else
    match getObservationType toolName with
    | .read => ([p], [])
    | .write => ([], [p])
    | _ => ([], [])

/-- The configured `maxResponseSize` (`DEFAULT_CONFIG`, 5000 bytes). -/
def maxResponseSize : Nat := 5000

/-- `storeObservation(...)` from `src/hooks/service.ts`: classifies the
tool, truncates the serialized response, combines the oracle result (or
its failure) with the deterministic templates, inserts the observation
row and increments the session's `observation_count`.  `ai` is the
result of `enrichWithAI(...).catch(() => null)`. -/
def storeObservation (st : ServiceState) (tmpl : Templates)
    (ai : Option EnrichedObservation) (sessionId project toolName : JStr)
    (toolInput toolResponse : Option Json) (cwd : JStr) (now : Nat) : ServiceState :=
  let type := getObservationType toolName
  let title := generateObservationTitle toolName toolInput
  let pn := getPromptNumber st sessionId
  let fp := extractFilePaths toolName toolInput
  let responseStr := truncateStr (jsonStringify (jsOrEmptyObj toolResponse)) maxResponseSize
  let e := combineEnrichment ai
    (tmpl.subtitle toolName toolInput toolResponse)
    (tmpl.narrative toolName toolInput toolResponse)
    (tmpl.facts toolName toolInput toolResponse)
    (tmpl.concepts toolName toolInput toolResponse)
  let row : ObsRow :=
    { sessionId := sessionId, project := project, toolName := toolName
      toolInput := jsOrEmptyObj toolInput
      toolResponse := responseStr
      cwd := cwd, timestamp := now, type := type, title := title
      promptNumber := if pn = 0 then none else some pn
      filesRead := fp.1, filesModified := fp.2
      subtitle := e.subtitle, narrative := e.narrative
      facts := e.facts, concepts := e.concepts }
  { st with
    observations := st.observations ++ [row]
    sessions := st.sessions.map (fun s =>
      if s.sessionId = sessionId then { s with observationCount := s.observationCount + 1 }
      else s) }

/-- `completeSession(sessionId, summary?)`: set `ended_at`, `summary`
and `status = 'completed'` on the matching session row. -/
def completeSession (st : ServiceState) (sessionId : JStr) (summary : Option JStr)
    (now : Nat) : ServiceState :=
  { st with sessions := st.sessions.map (fun s =>
      if s.sessionId = sessionId then
        { s with endedAt := some now, summary := some (summary.getD []), status := .completed }
      else s) }

/-- `saveSessionSummary(summary)`: insert one `session_summaries` row. -/
def saveSessionSummary (st : ServiceState) (d : SummaryData) (now : Nat) : ServiceState :=
  { st with summaries := st.summaries ++
      [{ sessionId := d.sessionId, project := d.project, request := d.request
         completed := d.completed, filesRead := d.filesRead
         filesModified := d.filesModified, nextSteps := d.nextSteps, notes := d.notes
         promptNumber := d.promptNumber, createdAt := now }] }

/-- The ascending prompt-number order of
`ORDER BY prompt_number ASC`. -/
def promptLe (a b : PromptRow) : Prop := a.promptNumber ≤ b.promptNumber

instance : DecidableRel promptLe := fun a b => Nat.decLe a.promptNumber b.promptNumber

instance : IsTotal PromptRow promptLe := ⟨fun a b => Nat.le_total a.promptNumber b.promptNumber⟩

instance : IsTrans PromptRow promptLe := ⟨fun _ _ _ h1 h2 => Nat.le_trans h1 h2⟩

/-- The descending timestamp order of `ORDER BY timestamp DESC`. -/
def obsGe (a b : ObsRow) : Prop := b.timestamp ≤ a.timestamp

instance : DecidableRel obsGe := fun a b => Nat.decLe b.timestamp a.timestamp

instance : IsTotal ObsRow obsGe := ⟨fun a b => (Nat.le_total b.timestamp a.timestamp)⟩

instance : IsTrans ObsRow obsGe := ⟨fun _ _ _ h1 h2 => Nat.le_trans h2 h1⟩

/-- `getSessionPrompts(sessionId)`:
`SELECT * FROM user_prompts WHERE session_id = ? ORDER BY prompt_number ASC`. -/
def getSessionPrompts (st : ServiceState) (sessionId : JStr) : List PromptRow :=
  List.insertionSort promptLe
    (st.prompts.filter (fun p => decide (p.sessionId = sessionId)))

/-- `getSessionObservations(sessionId, limit = 50)`:
`SELECT * FROM observations WHERE session_id = ? ORDER BY timestamp DESC LIMIT ?`. -/
def getSessionObservations (st : ServiceState) (sessionId : JStr) (limit : Nat := 50) :
    List ObsRow :=
  (List.insertionSort obsGe
    (st.observations.filter (fun o => decide (o.sessionId = sessionId)))).take limit

/-- Insertion-ordered set insertion, modelling JavaScript `Set.add`
(iteration order of a `Set` is insertion order). -/
def addSet (l : List JStr) (a : JStr) : List JStr :=
  if a ∈ l then l else l ++ [a]

/-- `input.file_path || input.path || ''` on a stored observation's
parsed tool input. -/
def readPathOf (o : ObsRow) : JStr :=
  jsOrS (getStrFieldJ o.toolInput "file_path".toList) (getStrFieldJ o.toolInput "path".toList)

/-- `input.command` on a stored observation's parsed tool input. -/
def cmdOf (o : ObsRow) : JStr := getStrFieldJ o.toolInput "command".toList

/-- The body of the per-observation loop
(`if read … else if write … else if execute …`). -/
def summaryStep (acc : List JStr × List JStr × List JStr) (obs : ObsRow) :
    List JStr × List JStr × List JStr :=
  if obs.type = .read ∧ readPathOf obs ≠ [] then (addSet acc.1 (readPathOf obs), acc.2.1, acc.2.2)
  else if obs.type = .write ∧ readPathOf obs ≠ [] then
    (acc.1, addSet acc.2.1 (readPathOf obs), acc.2.2)
  else if obs.type = .execute ∧ cmdOf obs ≠ [] then
    (acc.1, acc.2.1, acc.2.2 ++ [(cmdOf obs).take 80])
  else acc

def summaryFold (observations : List ObsRow) : List JStr × List JStr × List JStr :=
  observations.foldl summaryStep ([], [], [])

/-- The `byType` tally of `generateStructuredSummary`
(`byType[obs.type] = (byType[obs.type] || 0) + 1` over the fetched
observations). -/
def byTypeTally (observations : List ObsRow) : ObsType → Nat :=
  observations.foldl (fun f o => fun t => if t = o.type then f t + 1 else f t)
    (fun _ => 0)

/-- Spec-side tally: the number of fetched observations of a type. -/
def countByType (observations : List ObsRow) (t : ObsType) : Nat :=
  (observations.filter (fun o => decide (o.type = t))).length

/-- Join with a separator (`Array.prototype.join`). -/
def joinSep (sep : JStr) (parts : List JStr) : JStr :=
  List.intercalate sep parts

/-- The `completed` line: the nonempty per-type counts in the order
write, read, execute, search, or the fallback text. -/
def completedLine (observations : List ObsRow) : JStr :=
  let w := byTypeTally observations .write
  let r := byTypeTally observations .read
  let e := byTypeTally observations .execute
  let s := byTypeTally observations .search
  let parts :=
    (if w ≠ 0 then [natChars w ++ " file(s) modified".toList] else []) ++
    (if r ≠ 0 then [natChars r ++ " file(s) read".toList] else []) ++
    (if e ≠ 0 then [natChars e ++ " command(s) executed".toList] else []) ++
    (if s ≠ 0 then [natChars s ++ " search(es)".toList] else [])
  jsOrS (joinSep ", ".toList parts) "No activity recorded".toList

/-- `generateStructuredSummary(sessionId)` from `src/hooks/service.ts`. -/
def generateStructuredSummary (st : ServiceState) (sessionId : JStr) : SummaryData :=
  let observations := getSessionObservations st sessionId
  let prompts := getSessionPrompts st sessionId
  let session := getSession st sessionId
  let acc := summaryFold observations
  let request :=
    if prompts ≠ [] then
      joinSep " → ".toList
        (prompts.map (fun p =>
          "[#".toList ++ natChars p.promptNumber ++ "] ".toList ++ p.promptText.take 200))
    else (session.map (fun s => s.prompt)).getD []
  let commands := acc.2.2
  let notes :=
    if commands ≠ [] then
      "Commands: ".toList ++ joinSep "; ".toList (commands.take 5) ++
        (if 5 < commands.length then
          " (+".toList ++ natChars (commands.length - 5) ++ " more)".toList
         else [])
    else []
  { sessionId := sessionId
    project := (session.map (fun s => s.project)).getD []
    request := truncateStr request 500
    completed := completedLine observations
    filesRead := acc.1.take 20
    filesModified := acc.2.1.take 20
    nextSteps := []
    notes := notes
    promptNumber := prompts.length }

/-- `generateSummary(sessionId)` from `src/hooks/service.ts`: the
readable text rendition of the structured summary. -/
def generateSummary (st : ServiceState) (sessionId : JStr) : JStr :=
  let structured := generateStructuredSummary st sessionId
  let parts :=
    (if structured.request ≠ [] then ["Request: ".toList ++ structured.request] else []) ++
    (if structured.completed ≠ [] then ["Completed: ".toList ++ structured.completed] else []) ++
    (if structured.filesModified ≠ [] then
      ["Files modified: ".toList ++ joinSep ", ".toList structured.filesModified] else []) ++
    (if structured.nextSteps ≠ [] then ["Next: ".toList ++ structured.nextSteps] else [])
  jsOrS (joinSep ". ".toList parts) "No activity recorded.".toList

/-! ### Hook handler results and the summarize hook -/

/-- `HookResult` from `src/hooks/types.ts` (`cont` is the field named
`continue` in the source, a Lean keyword). -/
structure HookResult where
  cont : Bool
  suppressOutput : Bool
  additionalContext : Option JStr := none
  error : Option JStr := none
deriving DecidableEq, Repr

/-- `SummarizeHook.execute` (`src/hooks/summarize.ts`), success path: if
the session exists, generate the text summary and complete the session.
No `session_summaries` row is written. -/
def summarizeHookExecute (st : ServiceState) (input : NormalizedHookInput) (now : Nat) :
    ServiceState × HookResult :=
  match getSession st input.sessionId with
  | none => (st, { cont := true, suppressOutput := true })
  | some _ =>
    let summary := generateSummary st input.sessionId
    (completeSession st input.sessionId (some summary) now,
     { cont := true, suppressOutput := true })

/-! ### Operation sequences over the service -/

/-- One public mutating operation of `MemoryHookService`.  The
`storeObservation` payload carries the oracle result `ai` (the value of
`enrichWithAI(...).catch(() => null)` during that call). -/
inductive Op where
  | initSession (sessionId project : JStr) (prompt : Option JStr) (now : Nat)
  | saveUserPrompt (sessionId project promptText : JStr) (now : Nat)
  | storeObservation (ai : Option EnrichedObservation) (sessionId project toolName : JStr)
      (toolInput toolResponse : Option Json) (cwd : JStr) (now : Nat)
  | completeSession (sessionId : JStr) (summary : Option JStr) (now : Nat)
  | saveSessionSummary (d : SummaryData) (now : Nat)

/-- Apply one operation to the state. -/
def applyOp (tmpl : Templates) (st : ServiceState) : Op → ServiceState
  | .initSession sid project prompt now => initSession st sid project prompt now
  | .saveUserPrompt sid project text now => saveUserPrompt st sid project text now
  | .storeObservation ai sid project toolName toolInput toolResponse cwd now =>
    storeObservation st tmpl ai sid project toolName toolInput toolResponse cwd now
  | .completeSession sid summary now => completeSession st sid summary now
  | .saveSessionSummary d now => saveSessionSummary st d now

/-- Run a sequence of service operations from a state. -/
def runOps (tmpl : Templates) (st : ServiceState) (ops : List Op) : ServiceState :=
  ops.foldl (applyOp tmpl) st

/-! ### Hook handlers under arbitrary service outcomes (`src/hooks/*.ts`)

Each handler wraps its service calls in `try/catch`.  The outcome of the
service calls is modelled as an `Except` value: `.error e` is a thrown
exception, which the handler's `catch` turns into a result that still
carries `continue: true`. -/

/-- The internal tools skipped by the observation hook (`SKIP_TOOLS`). -/
def skipTools : List JStr :=
  ["TodoWrite".toList, "TodoRead".toList, "AskFollowupQuestion".toList,
   "AttemptCompletion".toList]

/-- The `{ continue: true, suppressOutput: true }` result. -/
def standardResult : HookResult := { cont := true, suppressOutput := true }

/-- `ObservationHook.execute` (`src/hooks/observation.ts`): skip missing
or internal tool names, otherwise run the service calls (outcome
`body`); a throw is caught and reported in `error`. -/
def observationHookResult (input : NormalizedHookInput) (body : Except JStr Unit) :
    HookResult :=
  match input.toolName with
  | none => standardResult
  | some t =>
    if t = [] then standardResult
    else if t ∈ skipTools then standardResult
    else
      match body with
      | .ok _ => standardResult
      | .error e => { cont := true, suppressOutput := true, error := some e }

/-- `ContextHook.execute` (`src/hooks/context.ts`): `body` is the
outcome of `initialize()` + `getContext(project)`, yielding the context
markdown on success. -/
def contextHookResult (body : Except JStr JStr) : HookResult :=
  match body with
  | .ok markdown =>
    if markdown = [] ∨ "No previous session context".toList <:+: markdown then
      standardResult
    else { cont := true, suppressOutput := false, additionalContext := some markdown }
  | .error e => { cont := true, suppressOutput := true, error := some e }

/-- `SessionInitHook.execute` (`src/hooks/session-init.ts`). -/
def sessionInitHookResult (body : Except JStr Unit) : HookResult :=
  match body with
  | .ok _ => standardResult
  | .error e => { cont := true, suppressOutput := true, error := some e }

/-- `SummarizeHook.execute` (`src/hooks/summarize.ts`) viewed against an
arbitrary outcome of its service calls (both the no-session early return
and the success path yield the standard result). -/
def summarizeHookResult (body : Except JStr Unit) : HookResult :=
  match body with
  | .ok _ => standardResult
  | .error e => { cont := true, suppressOutput := true, error := some e }

/-! ### Response envelope and the hook CLI (`src/hooks/cli.ts`) -/

/-- The response envelope written to stdout: `STANDARD_RESPONSE` or the
SessionStart context payload (`formatResponse`, `src/hooks/types.ts`). -/
inductive Response where
  | standard
  | sessionStartContext (ctx : JStr)
deriving DecidableEq

/-- `formatResponse(result)`: the context envelope exactly when
`result.additionalContext` is truthy (present and nonempty). -/
def formatResponse (r : HookResult) : Response :=
  match r.additionalContext with
  | some ctx => if ctx = [] then .standard else .sessionStartContext ctx
  | none => .standard

/-- What `main()` leaves on stdout. -/
inductive CliOut where
  | noOutput
  | response (r : Response)
deriving DecidableEq

/-- `main()` of `src/hooks/cli.ts`.  `event` is `process.argv[2]`
(`none` or the empty string when absent — `!event`: usage error, exit 1,
no envelope); `enrich` runs in
the background and prints nothing; `fatalThrown` models a throw outside
the handlers, absorbed by `main`'s own `catch`, which prints the
standard response.  The handler bodies' outcomes are parameters; the
`user-message` handler is absent from the snapshot, so its whole result
is the abstract outcome `userMessageResult`. -/
def cliMain (event : Option JStr) (fatalThrown : Bool) (input : NormalizedHookInput)
    (ctxBody : Except JStr JStr) (initBody obsBody sumBody : Except JStr Unit)
    (userMessageResult : Except JStr HookResult) : CliOut :=
  match event with
  | none => .noOutput
  | some ev =>
    if ev = [] then .noOutput
    else if ev = "enrich".toList then .noOutput
    else if fatalThrown then .response .standard
    else if ev = "context".toList then .response (formatResponse (contextHookResult ctxBody))
    else if ev = "session-init".toList then
      .response (formatResponse (sessionInitHookResult initBody))
    else if ev = "observation".toList then
      .response (formatResponse (observationHookResult input obsBody))
    else if ev = "summarize".toList then
      .response (formatResponse (summarizeHookResult sumBody))
    else if ev = "user-message".toList then
      match userMessageResult with
      | .ok r => .response (formatResponse r)
      | .error _ => .response .standard
    else .response .standard

/-! ### Markdown migration (`src/migration.ts`) -/

/-- One parsed section of a markdown file
(`ParsedMarkdown.sections`). -/
structure MdSection where
  title : JStr
  level : Nat
  content : JStr
deriving DecidableEq, Repr

/-- A parsed markdown file.  Only the frontmatter `tags` array is
consumed by `markdownToEntries` in a way the claims observe. -/
structure ParsedMarkdown where
  frontmatterTags : List JStr := []
  content : JStr := []
  sections : List MdSection := []
deriving DecidableEq, Repr

/-- A migrated memory entry.  `createDefaultEntry` lives in the main
`types.ts`, absent from the snapshot; modelled from the spec: a fresh
opaque unique `id`, the given fields, `references` as given (default
empty).  `nspace` is the `namespace` field (a Lean keyword); the
filename-to-namespace renaming table of `mapFilenameToNamespace` maps
seven fixed filenames to constants of the missing module and is the
identity here, which no claim observes. -/
structure Entry where
  id : JStr
  key : JStr
  content : JStr
  nspace : JStr
  tags : List JStr
  references : List JStr
deriving DecidableEq, Repr

/-- Whitespace trim (`String.prototype.trim`). -/
def jsTrim (s : JStr) : JStr :=
  ((s.dropWhile Char.isWhitespace).reverse.dropWhile Char.isWhitespace).reverse

/-- `slugify(text)` from `src/migration.ts`: lowercase, collapse
non-alphanumeric runs to `-`, strip leading/trailing `-`. -/
def isLowerAlnum (c : Char) : Bool :=
  ('a' ≤ c && c ≤ 'z') || ('0' ≤ c && c ≤ '9')

def collapseDash : List Char → List Char
  | [] => []
  | [c] => [c]
  | c :: d :: cs =>
    if c = '-' ∧ d = '-' then collapseDash (d :: cs) else c :: collapseDash (d :: cs)

def slugify (t : JStr) : JStr :=
  let mapped := (t.map Char.toLower).map (fun c => if isLowerAlnum c then c else '-')
  ((collapseDash mapped).dropWhile (fun c => c = '-')).reverse.dropWhile (fun c => c = '-')
    |>.reverse

/-- The section entries of `markdownToEntries`: one entry per section
whose content is strictly longer than 100 characters, each referencing
the parent entry.  `ids i` supplies the fresh id of the `i`-th created
entry. -/
def sectionEntries (ids : Nat → JStr) (filename : JStr) (nspace : JStr) (mainId : JStr) :
    Nat → List MdSection → List Entry
  | _, [] => []
  | i, s :: rest =>
    if 100 < s.content.length then
      { id := ids i
        key := filename ++ ":".toList ++ slugify s.title
        content := s.content
        nspace := nspace
        tags := ["section".toList, "level-".toList ++ natChars s.level]
        references := [mainId] } :: sectionEntries ids filename nspace mainId (i + 1) rest
    else sectionEntries ids filename nspace mainId i rest

/-- `MemoryMigrator.markdownToEntries` (`src/migration.ts`): one
top-level entry for the file, then the qualifying section entries. -/
def markdownToEntries (ids : Nat → JStr) (filename : JStr) (parsed : ParsedMarkdown) :
    List Entry :=
  let mainEntry : Entry :=
    { id := ids 0
      key := filename
      content := jsTrim parsed.content
      nspace := filename
      tags := parsed.frontmatterTags
      references := [] }
  mainEntry :: sectionEntries ids filename filename mainEntry.id 1 parsed.sections

/-! ### Spec-side state descriptions (C3, C10, C4) -/

/-- The prompt numbers of a session's stored prompts, in insertion
(rowid) order. -/
def promptNums (st : ServiceState) (sid : JStr) : List Nat :=
  (st.prompts.filter (fun p => decide (p.sessionId = sid))).map (fun p => p.promptNumber)

/-- The gapless-numbering invariant: every session's prompt numbers read
`1, 2, …, n` in insertion order. -/
def PromptInv (st : ServiceState) : Prop :=
  ∀ sid, promptNums st sid = List.range' 1 (promptNums st sid).length

/-- The number of observation rows of a session. -/
def obsCount (st : ServiceState) (sid : JStr) : Nat :=
  (st.observations.filter (fun o => decide (o.sessionId = sid))).length

/-- Every stored observation belongs to an existing session. -/
def NoOrphans (st : ServiceState) : Prop :=
  ∀ o ∈ st.observations, (getSession st o.sessionId).isSome = true

/-- The bookkeeping invariant: each session row's `observation_count`
equals the number of its observation rows. -/
def CountInv (st : ServiceState) : Prop :=
  ∀ s ∈ st.sessions, s.observationCount = obsCount st s.sessionId

def CountStateInv (st : ServiceState) : Prop := CountInv st ∧ NoOrphans st

/-- The per-operation side condition: `storeObservation` targets an
already-existing session (which the observation hook guarantees by
calling `initSession` first). -/
def opOk (st : ServiceState) : Op → Bool
  | .storeObservation _ sid _ _ _ _ _ _ => (getSession st sid).isSome
  | _ => true

/-- The whole-history precondition: every `storeObservation` of the
sequence targets a session that exists at that point. -/
def okOps (tmpl : Templates) : ServiceState → List Op → Bool
  | _, [] => true
  | st, op :: rest => opOk st op && okOps tmpl (applyOp tmpl st op) rest

/-- The file path an observation contributes to `filesRead`. -/
def readSel (o : ObsRow) : Option JStr :=
  if o.type = .read ∧ readPathOf o ≠ [] then some (readPathOf o) else none

/-- The file path an observation contributes to `filesModified`. -/
def writeSel (o : ObsRow) : Option JStr :=
  if o.type = .write ∧ readPathOf o ≠ [] then some (readPathOf o) else none

/-- The (80-character-truncated) command an observation contributes. -/
def cmdSel (o : ObsRow) : Option JStr :=
  if o.type = .execute ∧ cmdOf o ≠ [] then some ((cmdOf o).take 80) else none

/-- First-occurrence deduplication (JavaScript `Set` iteration order). -/
def dedupKeepFirst (l : List JStr) : List JStr := l.foldl addSet []

/-- The spec-side rendering of the `completed` line from the per-type
counts of the given observations. -/
def specCompletedLine (observations : List ObsRow) : JStr :=
  let w := countByType observations .write
  let r := countByType observations .read
  let e := countByType observations .execute
  let s := countByType observations .search
  let parts :=
    (if w ≠ 0 then [natChars w ++ " file(s) modified".toList] else []) ++
    (if r ≠ 0 then [natChars r ++ " file(s) read".toList] else []) ++
    (if e ≠ 0 then [natChars e ++ " command(s) executed".toList] else []) ++
    (if s ≠ 0 then [natChars s ++ " search(es)".toList] else [])
  jsOrS (joinSep ", ".toList parts) "No activity recorded".toList

/-- The spec-side rendering of one prompt inside `request`:
`[#n] <text truncated to 200>`. -/
def promptRender (p : PromptRow) : JStr :=
  "[#".toList ++ natChars p.promptNumber ++ "] ".toList ++ p.promptText.take 200

/-- The spec-side rendering of `notes` from the collected commands. -/
def notesLine (commands : List JStr) : JStr :=
  if commands ≠ [] then
    "Commands: ".toList ++ joinSep "; ".toList (commands.take 5) ++
      (if 5 < commands.length then
        " (+".toList ++ natChars (commands.length - 5) ++ " more)".toList
       else [])
  else []

/-! ### Concrete states and inputs used by the claim theorems -/

/-- A concrete pre-state for the summarize hook: session `S` exists with
one prompt and one `Read` observation. -/
def c1Ops : List Op :=
  [.initSession "S".toList "proj".toList (some "fix bug".toList) 1,
   .saveUserPrompt "S".toList "proj".toList "fix bug".toList 2,
   .storeObservation none "S".toList "proj".toList "Read".toList
     (some (Json.obj [("file_path".toList, Json.str "auth.ts".toList)])) none "cwd".toList 3]

def c1State : ServiceState := runOps defaultTemplates initialState c1Ops

def c1Input : NormalizedHookInput :=
  { sessionId := "S".toList, cwd := "cwd".toList, project := "proj".toList, timestamp := 4 }

/-- A concrete well-formed oracle answer. -/
def c7AiJson : Json :=
  Json.obj [("subtitle".toList, Json.str "s".toList),
            ("narrative".toList, Json.str "n".toList),
            ("facts".toList, Json.arr [Json.str "f".toList]),
            ("concepts".toList, Json.arr [Json.str "c".toList])]

/-- The parsed form of `c7AiJson`. -/
def c7Answer : EnrichedObservation :=
  { subtitle := "s".toList, narrative := "n".toList, facts := ["f".toList]
    concepts := ["c".toList] }

/-- A trivial normalized input used to instantiate the CLI theorem. -/
def c8Input : NormalizedHookInput :=
  { sessionId := [], cwd := [], project := [], timestamp := 0 }

/-- All observation rows of a session (no 50-row window). -/
def sessionObsAll (st : ServiceState) (sid : JStr) : List ObsRow :=
  st.observations.filter (fun o => decide (o.sessionId = sid))

/-- A reachable state whose session `S` holds one prompt and 51
observations: one `Write` (the oldest) and 50 `Read`s. -/
def c4CexOps : List Op :=
  [.initSession "S".toList "proj".toList (some "p".toList) 1,
   .saveUserPrompt "S".toList "proj".toList "p".toList 2,
   .storeObservation none "S".toList "proj".toList "Write".toList
     (some (Json.obj [("file_path".toList, Json.str "w.ts".toList)])) none "cwd".toList 3]
  ++ (List.range 50).map (fun i =>
       Op.storeObservation none "S".toList "proj".toList "Read".toList none none
         "cwd".toList (10 + i))

def c4CexState : ServiceState := runOps defaultTemplates initialState c4CexOps

/-- A small reachable state with one prompt, one read and one command. -/
def c4WitnessOps : List Op :=
  [.initSession "S".toList "proj".toList (some "p".toList) 1,
   .saveUserPrompt "S".toList "proj".toList "p".toList 2,
   .storeObservation none "S".toList "proj".toList "Read".toList
     (some (Json.obj [("file_path".toList, Json.str "a.ts".toList)])) none "cwd".toList 3,
   .storeObservation none "S".toList "proj".toList "Bash".toList
     (some (Json.obj [("command".toList, Json.str "npm test".toList)])) none "cwd".toList 4]

def c4WitnessState : ServiceState := runOps defaultTemplates initialState c4WitnessOps

/-- A concrete id supply for the migration examples. -/
def c9Ids : Nat → JStr := fun n => natChars n

/-- A parsed markdown file with one section of exactly 100 characters. -/
def c9CexParsed : ParsedMarkdown :=
  { content := "body".toList
    sections := [{ title := "Notes".toList, level := 2, content := List.replicate 100 'a' }] }

/-- A parsed markdown file with one substantial (150-character)
section. -/
def c9WitnessParsed : ParsedMarkdown :=
  { content := "body".toList
    sections := [{ title := "Big Section".toList, level := 2
                   content := List.replicate 150 'a' }] }

def c9EntryDflt : Entry :=
  { id := [], key := [], content := [], nspace := [], tags := [], references := [] }

/-- The invariant-breaking history: an observation stored for a session
that does not exist yet, followed by `initSession` for it. -/
def c10CexOps : List Op :=
  [.storeObservation none "S".toList "proj".toList "Read".toList none none "cwd".toList 1,
   .initSession "S".toList "proj".toList none 2]

/-- A well-formed history: session init before the observation. -/
def c10WitnessOps : List Op :=
  [.initSession "S".toList "proj".toList none 1,
   .storeObservation none "S".toList "proj".toList "Read".toList none none "cwd".toList 2]

/-! ## Theorems

Helper lemmas first, then one theorem per claim (with its witness or
counterexample). -/

theorem jsSplit_ne_nil (sep : Char → Bool) (l : JStr) : jsSplit sep l ≠ [] := by
  induction l with
  | nil => simp [jsSplit]
  | cons c cs ih =>
    simp only [jsSplit]
    split
    · simp
    · cases h : jsSplit sep cs with
      | nil => simp
      | cons r rs => simp

theorem takeWhile_append_of_all {p : α → Bool} {xs : List α} (ys : List α)
    (h : xs.all p) : (xs ++ ys).takeWhile p = xs ++ ys.takeWhile p := by
  induction xs with
  | nil => simp
  | cons x xs ih =>
    simp only [List.all_cons, Bool.and_eq_true] at h
    simp [List.takeWhile_cons, h.1, ih h.2]

theorem takeWhile_append_of_not_all {p : α → Bool} {xs : List α} (ys : List α)
    (h : ¬ xs.all p) : (xs ++ ys).takeWhile p = xs.takeWhile p := by
  induction xs with
  | nil => simp at h
  | cons x xs ih =>
    by_cases hx : p x
    · simp only [List.all_cons, hx, Bool.true_and] at h
      simp [List.takeWhile_cons, hx, ih h]
    · simp [List.takeWhile_cons, hx]

/-- A string with no separator splits into the single fragment that is
the whole string. -/
theorem jsSplit_eq_singleton {sep : Char → Bool} {l : JStr}
    (h : l.all (fun c => ¬ sep c)) : jsSplit sep l = [l] := by
  induction l with
  | nil => simp [jsSplit]
  | cons c cs ih =>
    simp only [List.all_cons, Bool.and_eq_true, decide_eq_true_eq] at h
    have hc : ¬ sep c = true := by simpa using h.1
    simp only [jsSplit, if_neg hc]
    rw [ih (by simpa using h.2)]

/-- If `jsSplit` produces a single fragment, the input had no separator. -/
theorem jsSplit_singleton_all {sep : Char → Bool} {l : JStr} {r : JStr}
    (h : jsSplit sep l = [r]) : l.all (fun c => ¬ sep c) := by
  induction l generalizing r with
  | nil => simp
  | cons d ds ihd =>
    by_cases hd : sep d
    · simp only [jsSplit, if_pos hd] at h
      cases h2 : jsSplit sep ds with
      | nil => exact absurd h2 (jsSplit_ne_nil sep ds)
      | cons a as =>
        rw [h2] at h
        simp at h
    · simp only [jsSplit, if_neg hd] at h
      cases h2 : jsSplit sep ds with
      | nil => exact absurd h2 (jsSplit_ne_nil sep ds)
      | cons a as =>
        rw [h2] at h
        simp only [List.cons.injEq] at h
        have has : as = [] := h.2
        subst has
        simp only [List.all_cons, Bool.and_eq_true, decide_eq_true_eq]
        exact ⟨hd, by simpa using ihd h2⟩

/-- The last fragment produced by `jsSplit` is the maximal
separator-free suffix of the input. -/
theorem jsSplit_getLast (sep : Char → Bool) (l : JStr) :
    ((jsSplit sep l).getLast?).getD [] = (l.reverse.takeWhile (fun c => ¬ sep c)).reverse := by
  induction l with
  | nil => simp [jsSplit]
  | cons c cs ih =>
    by_cases hall : cs.reverse.all (fun c => ¬ sep c)
    · have hsingle : jsSplit sep cs = [cs] := by
        apply jsSplit_eq_singleton
        simpa using hall
      by_cases hc : sep c
      · simp only [jsSplit, if_pos hc, hsingle]
        simp only [List.getLast?_cons, List.getLast?_cons, List.getLast?_nil]
        simp only [List.reverse_cons]
        rw [takeWhile_append_of_all _ hall]
        simp [List.takeWhile_cons, hc]
      · simp only [jsSplit, if_neg hc, hsingle]
        simp only [List.getLast?_cons, List.getLast?_nil]
        simp only [List.reverse_cons]
        rw [takeWhile_append_of_all _ hall]
        simp [List.takeWhile_cons, hc]
    · -- cs contains a separator, so the last fragment comes from cs
      have hrev : (c :: cs).reverse.takeWhile (fun c => ¬ sep c)
          = cs.reverse.takeWhile (fun c => ¬ sep c) := by
        simp only [List.reverse_cons]
        exact takeWhile_append_of_not_all _ hall
      by_cases hc : sep c
      · simp only [jsSplit, if_pos hc]
        rw [List.getLast?_cons, hrev, ← ih]
        cases h : jsSplit sep cs with
        | nil => exact absurd h (jsSplit_ne_nil sep cs)
        | cons r rs => simp [List.getLast?_cons]
      · simp only [jsSplit, if_neg hc]
        cases h : jsSplit sep cs with
        | nil => exact absurd h (jsSplit_ne_nil sep cs)
        | cons r rs =>
          cases rs with
          | nil =>
            -- a single fragment forces cs to be separator-free, contradiction
            exfalso
            apply hall
            have hcs := jsSplit_singleton_all h
            simpa [List.all_reverse] using hcs
          | cons r2 rs2 =>
            rw [hrev, ← ih, h]
            simp [List.getLast?_cons]

/-- `getProjectName` is "unknown" exactly on the empty path and on
paths ending in a separator, and otherwise returns the maximal
separator-free (hence nonempty) suffix of the path. -/
theorem getProjectName_spec (p : JStr) :
    (p = [] ∨ (∃ c ∈ p.getLast?, isSep c) → getProjectName p = "unknown".toList) ∧
    (p ≠ [] → (∀ c ∈ p.getLast?, ¬ isSep c) → getProjectName p = lastSegment p ∧ lastSegment p ≠ []) := by
  constructor
  · rintro (rfl | ⟨c, hc, hsep⟩)
    · simp [getProjectName, jsSplit]
    · have hne : p ≠ [] := by
        cases p <;> simp_all
      unfold getProjectName
      rw [jsSplit_getLast]
      have : p.reverse.takeWhile (fun c => ¬ isSep c) = [] := by
        cases hrev : p.reverse with
        | nil => simp
        | cons d ds =>
          have hcd : d = c := by
            have h1 : p.getLast? = some d := by
              rw [← List.head?_reverse, hrev]
              rfl
            rw [h1] at hc
            simpa using hc
          subst hcd
          simp [List.takeWhile_cons, hsep]
      rw [this]
      simp
  · intro hne hnosep
    unfold getProjectName lastSegment
    rw [jsSplit_getLast]
    have hhead : ∃ d ds, p.reverse = d :: ds ∧ ¬ isSep d := by
      cases hrev : p.reverse with
      | nil =>
        exfalso
        exact hne (by simpa using congrArg List.reverse hrev)
      | cons d ds =>
        refine ⟨d, ds, rfl, ?_⟩
        apply hnosep
        rw [← List.head?_reverse, hrev]
        rfl
    obtain ⟨d, ds, hrev, hd⟩ := hhead
    rw [hrev]
    have : (d :: ds).takeWhile (fun c => ¬ isSep c) = d :: ds.takeWhile (fun c => ¬ isSep c) := by
      simp [List.takeWhile_cons, hd]
    rw [this]
    simp

/-- The digit characters are never `'d'` or `']'`. -/
theorem digCh_ne (k : Nat) : digCh k ≠ 'd' ∧ digCh k ≠ ']' := by
  unfold digCh
  split <;> exact ⟨by decide, by decide⟩

theorem natChars_getLast (n : Nat) : ∃ k, (natChars n).getLast? = some (digCh k) := by
  unfold natChars natCharsAux
  split
  · exact ⟨n, rfl⟩
  · exact ⟨n % 10, by simp [List.getLast?_append]⟩

theorem natChars_ne_nil (n : Nat) : natChars n ≠ [] := by
  unfold natChars natCharsAux
  split
  · simp
  · simp

theorem intChars_getLast (n : Int) : ∃ k, (intChars n).getLast? = some (digCh k) := by
  unfold intChars
  split
  · obtain ⟨k, hk⟩ := natChars_getLast (-n).toNat
    refine ⟨k, ?_⟩
    rw [List.getLast?_cons, hk]
    rfl
  · exact natChars_getLast n.toNat

theorem jsonStringify_ne_nil (j : Json) : jsonStringify j ≠ [] := by
  cases j with
  | null => simp [jsonStringify]
  | bool b => cases b <;> simp [jsonStringify]
  | num n =>
    simp only [jsonStringify, intChars]
    split
    · simp
    · exact natChars_ne_nil _
  | str s => simp [jsonStringify, stringifyStr]
  | arr xs => simp [jsonStringify]
  | obj fs => simp [jsonStringify]

/-- The rendering of a JSON value never ends in the letter `'d'`. -/
theorem jsonStringify_getLast_ne_d (j : Json) :
    (jsonStringify j).getLast? ≠ some 'd' := by
  cases j with
  | null => simp [jsonStringify]
  | bool b => cases b <;> simp [jsonStringify]
  | num n =>
    obtain ⟨k, hk⟩ := intChars_getLast n
    simp only [jsonStringify, hk]
    simpa using (digCh_ne k).1
  | str s =>
    simp only [jsonStringify, stringifyStr, List.getLast?_cons, List.getLast?_append]
    simp
  | arr xs =>
    simp only [jsonStringify, List.getLast?_cons, List.getLast?_append]
    simp
  | obj fs =>
    simp only [jsonStringify, List.getLast?_cons, List.getLast?_append]
    simp

theorem stringifyElems_ne_nil (x : Json) (xs : List Json) :
    stringifyElems (x :: xs) ≠ [] := by
  cases xs with
  | nil => simpa [stringifyElems] using jsonStringify_ne_nil x
  | cons y ys =>
    simp only [stringifyElems]
    intro h
    exact jsonStringify_ne_nil x (by simpa using List.append_eq_nil.mp h |>.1)

/-- The last character of a rendered element list is the last character
of the last element's rendering. -/
theorem stringifyElems_getLast (x : Json) (xs : List Json) :
    (stringifyElems (x :: xs)).getLast? = (jsonStringify (xs.getLastD x)).getLast? := by
  induction xs generalizing x with
  | nil => simp [stringifyElems]
  | cons y ys ih =>
    simp only [stringifyElems, List.getLastD_cons]
    rw [List.getLast?_append]
    rw [List.getLast?_cons]
    have hne := stringifyElems_ne_nil y ys
    cases h : stringifyElems (y :: ys) with
    | nil => exact absurd h hne
    | cons a as =>
      have h2 := ih y
      rw [h] at h2
      simp only [List.getLast?_cons] at h2 ⊢
      rw [h2]
      cases hg : (jsonStringify ((ys.getLast?).getD y)).getLast? with
      | none =>
        exfalso
        exact jsonStringify_ne_nil _ (List.getLast?_eq_none_iff.mp (by simpa using hg))
      | some c => simp [hg]

/-- No `JSON.stringify` output ends with the truncation marker: valid
renderings end in a quote, brace, bracket, digit or letter of a keyword,
and a rendering ending in `]` closes an array whose preceding character
cannot be `d`. -/
theorem marker_not_suffix (j : Json) : ¬ (marker <:+ jsonStringify j) := by
  intro h
  have hdj : ['d', ']'] <:+ jsonStringify j :=
    List.IsSuffix.trans (by decide) h
  obtain ⟨t, ht⟩ := hdj
  have hlast : (jsonStringify j).getLast? = some ']' := by
    rw [← ht]
    simp [List.getLast?_append]
  cases j with
  | null => simp [jsonStringify] at hlast
  | bool b => cases b <;> simp [jsonStringify] at hlast
  | num n =>
    obtain ⟨k, hk⟩ := intChars_getLast n
    rw [jsonStringify] at hlast
    rw [hk] at hlast
    exact (digCh_ne k).2 (by simpa using hlast)
  | str s =>
    rw [jsonStringify] at hlast
    simp only [stringifyStr, List.getLast?_cons, List.getLast?_append] at hlast
    simp at hlast
  | obj fs =>
    rw [jsonStringify] at hlast
    simp only [List.getLast?_cons, List.getLast?_append] at hlast
    simp at hlast
  | arr xs =>
    rw [jsonStringify] at ht
    have ht2 : (t ++ ['d']) ++ [']'] = ('[' :: stringifyElems xs) ++ [']'] := by
      simpa using ht
    have ht3 : t ++ ['d'] = '[' :: stringifyElems xs := List.append_cancel_right ht2
    have hd : ('[' :: stringifyElems xs).getLast? = some 'd' := by
      rw [← ht3]
      simp [List.getLast?_append]
    cases hxs : xs with
    | nil =>
      rw [hxs] at hd
      simp [stringifyElems] at hd
    | cons x rest =>
      rw [hxs] at hd
      rw [List.getLast?_cons] at hd
      have hne := stringifyElems_ne_nil x rest
      have hgl := stringifyElems_getLast x rest
      cases hg : (stringifyElems (x :: rest)).getLast? with
      | none => exact hne (List.getLast?_eq_none_iff.mp hg)
      | some c =>
        rw [hg] at hd hgl
        have hc : c = 'd' := by simpa using hd
        exact jsonStringify_getLast_ne_d (rest.getLastD x) (by rw [← hgl, hc])

theorem getPromptNumber_eq_length (st : ServiceState) (sid : JStr) :
    getPromptNumber st sid = (promptNums st sid).length := by
  simp [getPromptNumber, promptNums]

theorem prompts_initSession (st : ServiceState) (sid project : JStr) (prompt : Option JStr)
    (now : Nat) : (initSession st sid project prompt now).prompts = st.prompts := by
  unfold initSession
  cases getSession st sid <;> rfl

theorem promptInv_initial : PromptInv initialState := fun _ => rfl

theorem promptNums_saveUserPrompt (st : ServiceState) (hInv : PromptInv st)
    (sid project text : JStr) (now : Nat) (sid2 : JStr) :
    promptNums (saveUserPrompt st sid project text now) sid2
      = if sid2 = sid then promptNums st sid ++ [(promptNums st sid).length + 1]
        else promptNums st sid2 := by
  unfold saveUserPrompt
  have hpr := prompts_initSession st sid project (some text) now
  have hlen : getPromptNumber (initSession st sid project (some text) now) sid
      = (promptNums st sid).length := by
    rw [getPromptNumber_eq_length]
    simp [promptNums, hpr]
  have hany : ¬ ((initSession st sid project (some text) now).prompts.any (fun p =>
      decide (p.sessionId = sid ∧
        p.promptNumber = getPromptNumber (initSession st sid project (some text) now) sid + 1))
        = true) := by
    rw [hpr, hlen]
    intro hc
    rw [List.any_eq_true] at hc
    obtain ⟨p, hp, hcond⟩ := hc
    rw [decide_eq_true_eq] at hcond
    have hmem : p.promptNumber ∈ promptNums st sid := by
      simp only [promptNums, List.mem_map]
      exact ⟨p, List.mem_filter.mpr ⟨hp, by simp [hcond.1]⟩, rfl⟩
    rw [hInv sid] at hmem
    rw [List.mem_range'_1] at hmem
    omega
  rw [if_neg hany]
  by_cases h2 : sid2 = sid
  · subst h2
    simp [promptNums, hpr, hlen, List.filter_append]
  · simp [promptNums, hpr, List.filter_append, h2,
      show ¬ (sid = sid2) from fun h => h2 h.symm]

theorem promptInv_applyOp (tmpl : Templates) (st : ServiceState) (hInv : PromptInv st)
    (op : Op) : PromptInv (applyOp tmpl st op) := by
  cases op with
  | initSession sid project prompt now =>
    intro sid2
    simpa [applyOp, promptNums, prompts_initSession] using hInv sid2
  | saveUserPrompt sid project text now =>
    intro sid2
    rw [show applyOp tmpl st (.saveUserPrompt sid project text now)
        = saveUserPrompt st sid project text now from rfl]
    rw [promptNums_saveUserPrompt st hInv sid project text now sid2]
    by_cases h2 : sid2 = sid
    · simp only [if_pos h2]
      simp only [List.length_append, List.length_cons, List.length_nil]
      rw [List.range'_concat]
      refine congrArg₂ (· ++ ·) (hInv sid) ?_
      simp [Nat.add_comm]
    · simp only [if_neg h2]
      exact hInv sid2
  | storeObservation ai sid project toolName toolInput toolResponse cwd now =>
    intro sid2
    simpa [applyOp, promptNums, storeObservation] using hInv sid2
  | completeSession sid summary now =>
    intro sid2
    simpa [applyOp, promptNums, completeSession] using hInv sid2
  | saveSessionSummary d now =>
    intro sid2
    simpa [applyOp, promptNums, saveSessionSummary] using hInv sid2

theorem promptInv_runOps (tmpl : Templates) (ops : List Op) (st : ServiceState)
    (hInv : PromptInv st) : PromptInv (runOps tmpl st ops) := by
  induction ops generalizing st with
  | nil => exact hInv
  | cons op rest ih =>
    exact ih (applyOp tmpl st op) (promptInv_applyOp tmpl st hInv op)

theorem find?_isSome_map (l : List α) (f : α → α) (p : α → Bool)
    (hf : ∀ a, p (f a) = p a) :
    ((l.map f).find? p).isSome = (l.find? p).isSome := by
  rw [List.find?_map]
  have hpf : p ∘ f = p := funext hf
  rw [hpf]
  cases l.find? p <;> rfl

theorem find?_isSome_append_left {l1 l2 : List α} {p : α → Bool}
    (h : (l1.find? p).isSome = true) : ((l1 ++ l2).find? p).isSome = true := by
  rw [List.find?_append]
  cases hf : l1.find? p with
  | none => rw [hf] at h; simp at h
  | some a => simp [hf]

/-- The session-row update of `storeObservation` preserves session ids. -/
theorem bump_sessionId (sid : JStr) (s : SessionRow) :
    ((if s.sessionId = sid then { s with observationCount := s.observationCount + 1 }
      else s) : SessionRow).sessionId = s.sessionId := by
  split <;> rfl

/-- The session-row update of `completeSession` preserves session ids
and observation counts. -/
theorem complete_fields (sid : JStr) (summary : Option JStr) (now : Nat) (s : SessionRow) :
    (((if s.sessionId = sid then
        { s with endedAt := some now, summary := some (summary.getD []),
                 status := SessionStatus.completed }
      else s) : SessionRow).sessionId = s.sessionId) ∧
    (((if s.sessionId = sid then
        { s with endedAt := some now, summary := some (summary.getD []),
                 status := SessionStatus.completed }
      else s) : SessionRow).observationCount = s.observationCount) := by
  constructor <;> (split <;> rfl)

theorem countStateInv_initSession (st : ServiceState) (hI : CountStateInv st)
    (sid project : JStr) (prompt : Option JStr) (now : Nat) :
    CountStateInv (initSession st sid project prompt now) := by
  unfold initSession
  cases hs : getSession st sid with
  | some s => exact hI
  | none =>
    constructor
    · intro s hmem
      rw [List.mem_append] at hmem
      cases hmem with
      | inl hold => exact hI.1 s hold
      | inr hnew =>
        simp only [List.mem_singleton] at hnew
        subst hnew
        show 0 = obsCount st sid
        by_contra hne
        have hpos : 0 < (st.observations.filter (fun o => decide (o.sessionId = sid))).length := by
          unfold obsCount at hne
          omega
        rw [List.length_pos] at hpos
        obtain ⟨o, ho⟩ := List.exists_mem_of_ne_nil _ hpos
        have hfo := List.mem_filter.mp ho
        have hsid : o.sessionId = sid := by simpa using hfo.2
        have := hI.2 o hfo.1
        rw [hsid] at this
        rw [hs] at this
        simp at this
    · intro o ho
      have := hI.2 o ho
      exact find?_isSome_append_left this

theorem countStateInv_storeObservation (st : ServiceState) (hI : CountStateInv st)
    (tmpl : Templates) (ai : Option EnrichedObservation)
    (sid project toolName : JStr) (toolInput toolResponse : Option Json) (cwd : JStr)
    (now : Nat) (hok : (getSession st sid).isSome = true) :
    CountStateInv (storeObservation st tmpl ai sid project toolName toolInput toolResponse
      cwd now) := by
  have hcount : ∀ x, obsCount (storeObservation st tmpl ai sid project toolName toolInput
      toolResponse cwd now) x = obsCount st x + (if sid = x then 1 else 0) := by
    intro x
    unfold obsCount storeObservation
    simp only [List.filter_append, List.length_append]
    have hone : ∀ (row : ObsRow), row.sessionId = sid →
        (List.filter (fun o => decide (o.sessionId = x)) [row]).length
          = if sid = x then 1 else 0 := by
      intro row hrow
      by_cases hx : sid = x
      · simp [List.filter, hrow, hx]
      · simp [List.filter, hrow, hx]
    split <;> rw [hone _ rfl]
  constructor
  · intro s' hmem
    simp only [storeObservation, List.mem_map] at hmem
    obtain ⟨s, hs, hfs⟩ := hmem
    rw [hcount s'.sessionId]
    by_cases hsid : s.sessionId = sid
    · rw [if_pos hsid] at hfs
      subst hfs
      simp only
      rw [show ({ s with observationCount := s.observationCount + 1 } : SessionRow).sessionId
          = s.sessionId from rfl, hsid, if_pos rfl]
      rw [hI.1 s hs, hsid]
    · rw [if_neg hsid] at hfs
      subst hfs
      rw [if_neg (fun h => hsid h.symm)]
      simpa using hI.1 s hs
  · intro o ho
    have hgs : ∀ x, (getSession (storeObservation st tmpl ai sid project toolName toolInput
        toolResponse cwd now) x).isSome = (getSession st x).isSome := by
      intro x
      unfold getSession storeObservation
      exact find?_isSome_map _ _ _ (fun s => by
        rw [show ∀ (a : SessionRow), (decide (a.sessionId = x) : Bool)
            = decide (a.sessionId = x) from fun _ => rfl]
        congr 1
        rw [bump_sessionId])
    simp only [storeObservation, List.mem_append] at ho
    cases ho with
    | inl hold =>
      rw [hgs]
      exact hI.2 o hold
    | inr hnew =>
      simp only [List.mem_singleton] at hnew
      subst hnew
      rw [hgs]
      exact hok

theorem countStateInv_completeSession (st : ServiceState) (hI : CountStateInv st)
    (sid : JStr) (summary : Option JStr) (now : Nat) :
    CountStateInv (completeSession st sid summary now) := by
  constructor
  · intro s' hmem
    simp only [completeSession, List.mem_map] at hmem
    obtain ⟨s, hs, hfs⟩ := hmem
    subst hfs
    rw [(complete_fields sid summary now s).1, (complete_fields sid summary now s).2]
    exact hI.1 s hs
  · intro o ho
    have hgs : ∀ x, (getSession (completeSession st sid summary now) x).isSome
        = (getSession st x).isSome := by
      intro x
      unfold getSession completeSession
      exact find?_isSome_map _ _ _ (fun s => by
        congr 1
        rw [(complete_fields sid summary now s).1])
    rw [hgs]
    exact hI.2 o ho

theorem countStateInv_saveUserPrompt (st : ServiceState) (hI : CountStateInv st)
    (sid project text : JStr) (now : Nat) :
    CountStateInv (saveUserPrompt st sid project text now) := by
  have h1 := countStateInv_initSession st hI sid project (some text) now
  simp only [saveUserPrompt]
  split
  · exact h1
  · exact ⟨fun s hs => h1.1 s hs, fun o ho => h1.2 o ho⟩

theorem countStateInv_saveSessionSummary (st : ServiceState) (hI : CountStateInv st)
    (d : SummaryData) (now : Nat) : CountStateInv (saveSessionSummary st d now) := by
  constructor
  · intro s hs
    exact hI.1 s hs
  · intro o ho
    exact hI.2 o ho

theorem countStateInv_runOps (tmpl : Templates) (ops : List Op) (st : ServiceState)
    (hI : CountStateInv st) (hok : okOps tmpl st ops = true) :
    CountStateInv (runOps tmpl st ops) := by
  induction ops generalizing st with
  | nil => exact hI
  | cons op rest ih =>
    cases op with
    | initSession sid project prompt now =>
      rw [okOps, Bool.and_eq_true] at hok
      exact ih _ (countStateInv_initSession st hI sid project prompt now) hok.2
    | saveUserPrompt sid project text now =>
      rw [okOps, Bool.and_eq_true] at hok
      exact ih _ (countStateInv_saveUserPrompt st hI sid project text now) hok.2
    | storeObservation ai sid project toolName ti tr cwd now =>
      rw [okOps, Bool.and_eq_true] at hok
      exact ih _ (countStateInv_storeObservation st hI tmpl ai sid project toolName ti tr
        cwd now (by simpa using hok.1)) hok.2
    | completeSession sid summary now =>
      rw [okOps, Bool.and_eq_true] at hok
      exact ih _ (countStateInv_completeSession st hI sid summary now) hok.2
    | saveSessionSummary d now =>
      rw [okOps, Bool.and_eq_true] at hok
      exact ih _ (countStateInv_saveSessionSummary st hI d now) hok.2

theorem countStateInv_initial : CountStateInv initialState := by
  constructor
  · intro s hs
    simp [initialState] at hs
  · intro o ho
    simp [initialState] at ho

theorem summaryFold_go (l : List ObsRow) : ∀ a b c,
    l.foldl summaryStep (a, b, c)
      = ((l.filterMap readSel).foldl addSet a,
         (l.filterMap writeSel).foldl addSet b,
         c ++ l.filterMap cmdSel) := by
  induction l with
  | nil => simp
  | cons o rest ih =>
    intro a b c
    rw [List.foldl_cons, List.filterMap_cons, List.filterMap_cons, List.filterMap_cons]
    by_cases h1 : o.type = .read ∧ readPathOf o ≠ []
    · have hr : readSel o = some (readPathOf o) := by simp [readSel, h1]
      have hw : writeSel o = none := by simp [writeSel, h1.1]
      have hc : cmdSel o = none := by simp [cmdSel, h1.1]
      rw [hr, hw, hc]
      rw [show summaryStep (a, b, c) o = (addSet a (readPathOf o), b, c) by
        simp [summaryStep, h1]]
      rw [ih]
      simp
    · by_cases h2 : o.type = .write ∧ readPathOf o ≠ []
      · have hr : readSel o = none := by simp [readSel, h2.1]
        have hw : writeSel o = some (readPathOf o) := by simp [writeSel, h2]
        have hc : cmdSel o = none := by simp [cmdSel, h2.1]
        rw [hr, hw, hc]
        rw [show summaryStep (a, b, c) o = (a, addSet b (readPathOf o), c) by
          simp [summaryStep, h1, h2]]
        rw [ih]
        simp
      · by_cases h3 : o.type = .execute ∧ cmdOf o ≠ []
        · have hr : readSel o = none := by simp [readSel, h3.1]
          have hw : writeSel o = none := by simp [writeSel, h3.1]
          have hc : cmdSel o = some ((cmdOf o).take 80) := by simp [cmdSel, h3]
          rw [hr, hw, hc]
          rw [show summaryStep (a, b, c) o = (a, b, c ++ [(cmdOf o).take 80]) by
            simp [summaryStep, h1, h2, h3]]
          rw [ih]
          simp
        · have hr : readSel o = none := by simp [readSel, h1]
          have hw : writeSel o = none := by simp [writeSel, h2]
          have hc : cmdSel o = none := by simp [cmdSel, h3]
          rw [hr, hw, hc]
          rw [show summaryStep (a, b, c) o = (a, b, c) by simp [summaryStep, h1, h2, h3]]
          exact ih a b c

theorem summaryFold_eq (l : List ObsRow) :
    summaryFold l = (dedupKeepFirst (l.filterMap readSel),
                     dedupKeepFirst (l.filterMap writeSel),
                     l.filterMap cmdSel) := by
  unfold summaryFold dedupKeepFirst
  rw [summaryFold_go]
  simp

theorem byTypeTally_go (l : List ObsRow) : ∀ (f : ObsType → Nat) (t : ObsType),
    l.foldl (fun f o => fun t => if t = o.type then f t + 1 else f t) f t
      = f t + countByType l t := by
  induction l with
  | nil => simp [countByType]
  | cons o rest ih =>
    intro f t
    rw [List.foldl_cons, ih]
    unfold countByType
    by_cases ht : o.type = t
    · rw [List.filter_cons_of_pos (by simpa using ht)]
      simp only [List.length_cons, if_pos ht.symm]
      omega
    · rw [List.filter_cons_of_neg (by simpa using ht)]
      rw [if_neg (fun h => ht h.symm)]

theorem byTypeTally_eq (l : List ObsRow) (t : ObsType) :
    byTypeTally l t = countByType l t := by
  unfold byTypeTally
  rw [byTypeTally_go]
  simp

theorem nodup_foldl_addSet (l : List JStr) : ∀ a : List JStr, a.Nodup →
    (l.foldl addSet a).Nodup := by
  induction l with
  | nil => intro a ha; simpa
  | cons x rest ih =>
    intro a ha
    rw [List.foldl_cons]
    apply ih
    unfold addSet
    split
    · exact ha
    · rename_i hx
      rw [List.nodup_append]
      refine ⟨ha, by simp, ?_⟩
      intro b hb hbx
      rw [List.mem_singleton] at hbx
      subst hbx
      exact hx hb

theorem completedLine_eq_spec (observations : List ObsRow) :
    completedLine observations = specCompletedLine observations := by
  unfold completedLine specCompletedLine
  rw [byTypeTally_eq, byTypeTally_eq, byTypeTally_eq, byTypeTally_eq]

theorem sectionEntries_spec (ids : Nat → JStr) (filename nspace mainId : JStr) :
    ∀ (secs : List MdSection) (i : Nat),
    (sectionEntries ids filename nspace mainId i secs).length
      = (secs.filter (fun s => decide (100 < s.content.length))).length
    ∧ ∀ e ∈ sectionEntries ids filename nspace mainId i secs, e.references = [mainId] := by
  intro secs
  induction secs with
  | nil => intro i; exact ⟨rfl, by intro e he; simp [sectionEntries] at he⟩
  | cons s rest ih =>
    intro i
    by_cases hs : 100 < s.content.length
    · constructor
      · rw [sectionEntries, if_pos hs, List.filter_cons_of_pos (by simpa using hs)]
        simpa using (ih (i + 1)).1
      · intro e he
        rw [sectionEntries, if_pos hs] at he
        rcases List.mem_cons.mp he with h | h
        · rw [h]
        · exact (ih (i + 1)).2 e h
    · constructor
      · rw [sectionEntries, if_neg hs, List.filter_cons_of_neg (by simpa using hs)]
        exact (ih i).1
      · intro e he
        rw [sectionEntries, if_neg hs] at he
        exact (ih i).2 e he

/-- C1: the claim says that after a session-end (summarize) hook run for
an existing session `S`, a structured `SessionSummary` row for `S` has
been persisted in `session_summaries` and the sessions row is
`completed` with the text rendition as its summary.  Evaluating
`SummarizeHook.execute` at a concrete existing session shows the second
half holds but the first does not: the handler calls `generateSummary`
and `completeSession` only, never `saveSessionSummary`, so the
`session_summaries` store stays empty — contradicting the repository's
own handlers test, which expects one persisted summary row after the
hook. -/
theorem c1_summarize_persists_no_summary :
    (getSession c1State "S".toList).isSome = true
    ∧ (summarizeHookExecute c1State c1Input 5).1.summaries = []
    ∧ (getSession (summarizeHookExecute c1State c1Input 5).1 "S".toList).map
        (fun s => s.status) = some SessionStatus.completed
    ∧ (getSession (summarizeHookExecute c1State c1Input 5).1 "S".toList).map
        (fun s => s.summary) = some (some (generateSummary c1State "S".toList)) := by
  exact ⟨by decide, by decide, by decide, by decide⟩

/-- C2: for every tool response, the stored `toolResponse` string has
length at most `5000 + |"...[truncated]"|`, ends with the literal marker
iff the JSON serialization exceeded 5000 characters, and equals the
serialization unchanged when it is within the limit. -/
theorem c2_toolResponse_truncation (toolResponse : Option Json) :
    (truncateStr (jsonStringify (jsOrEmptyObj toolResponse)) 5000).length
        ≤ 5000 + marker.length
    ∧ (marker <:+ truncateStr (jsonStringify (jsOrEmptyObj toolResponse)) 5000
        ↔ 5000 < (jsonStringify (jsOrEmptyObj toolResponse)).length)
    ∧ ((jsonStringify (jsOrEmptyObj toolResponse)).length ≤ 5000 →
        truncateStr (jsonStringify (jsOrEmptyObj toolResponse)) 5000
          = jsonStringify (jsOrEmptyObj toolResponse)) := by
  by_cases h : (jsonStringify (jsOrEmptyObj toolResponse)).length ≤ 5000
  · unfold truncateStr
    rw [if_pos h]
    refine ⟨by omega, ?_, fun _ => rfl⟩
    constructor
    · intro hsuf
      exact absurd hsuf (marker_not_suffix _)
    · intro hlt
      omega
  · unfold truncateStr
    rw [if_neg h]
    have hlen : ((jsonStringify (jsOrEmptyObj toolResponse)).take 5000).length = 5000 := by
      rw [List.length_take]
      omega
    refine ⟨?_, ?_, fun hc => absurd hc h⟩
    · rw [List.length_append, hlen]
    · constructor
      · intro _
        omega
      · intro _
        exact List.suffix_append _ _

/-- Witness for C2 at a short concrete response, exercising the
"within the limit" branch. -/
theorem c2_toolResponse_truncation_witness :
    (jsonStringify (jsOrEmptyObj (some (Json.str "ok".toList)))).length ≤ 5000
    ∧ truncateStr (jsonStringify (jsOrEmptyObj (some (Json.str "ok".toList)))) 5000
        = jsonStringify (jsOrEmptyObj (some (Json.str "ok".toList))) :=
  ⟨by decide, (c2_toolResponse_truncation (some (Json.str "ok".toList))).2.2 (by decide)⟩

/-- C3: after any sequence of service operations, every session's stored
prompt numbers form the gapless sequence `1..n` in insertion order,
hence are pairwise distinct, and a further `saveUserPrompt` appends
exactly the number `(existing count) + 1`. -/
theorem c3_prompt_numbering_gapless (tmpl : Templates) (ops : List Op) (sid : JStr) :
    promptNums (runOps tmpl initialState ops) sid
      = List.range' 1 (promptNums (runOps tmpl initialState ops) sid).length
    ∧ (promptNums (runOps tmpl initialState ops) sid).Nodup
    ∧ ∀ project text now,
        promptNums (saveUserPrompt (runOps tmpl initialState ops) sid project text now) sid
          = promptNums (runOps tmpl initialState ops) sid
              ++ [(promptNums (runOps tmpl initialState ops) sid).length + 1] := by
  have hInv := promptInv_runOps tmpl ops initialState promptInv_initial
  refine ⟨hInv sid, ?_, ?_⟩
  · rw [hInv sid]
    exact List.nodup_range' 1 _
  · intro project text now
    rw [promptNums_saveUserPrompt _ hInv sid project text now sid, if_pos rfl]

/-- C5: the observation type assigned to a tool name follows the
classification table exactly — Read/Glob/Grep/LS are `read`,
Write/Edit/NotebookEdit are `write`, Bash/Task/Skill are `execute`,
WebSearch/WebFetch are `search`, every other tool name is `other`. -/
theorem c5_observation_type_table :
    (∀ t ∈ readTools, getObservationType t = .read)
    ∧ (∀ t ∈ writeTools, getObservationType t = .write)
    ∧ (∀ t ∈ executeTools, getObservationType t = .execute)
    ∧ (∀ t ∈ searchTools, getObservationType t = .search)
    ∧ ∀ t : JStr, t ∉ readTools → t ∉ writeTools → t ∉ executeTools → t ∉ searchTools →
        getObservationType t = .other := by
  refine ⟨by decide, by decide, by decide, by decide, ?_⟩
  intro t h1 h2 h3 h4
  simp [getObservationType, h1, h2, h3, h4]

/-- Witness for C5: a listed tool and an unlisted tool classified at
concrete inputs. -/
theorem c5_observation_type_table_witness :
    getObservationType "Read".toList = .read
    ∧ getObservationType "SomeOtherTool".toList = .other :=
  ⟨c5_observation_type_table.1 "Read".toList (by decide),
   c5_observation_type_table.2.2.2.2 "SomeOtherTool".toList
     (by decide) (by decide) (by decide) (by decide)⟩

/-- C6: `parseHookInput` is total (the malformed branch returns the
synthesized record rather than throwing); the returned record's
`project` is always derived from its `cwd` by `getProjectName`, which
yields the last path segment, or `"unknown"` exactly when the path is
empty or ends in a separator; and the malformed case carries only a
fresh session id, the process cwd, the derived project and a
timestamp. -/
theorem c6_parseHookInput_never_throws :
    (∀ (parsed : Option ClaudeCodeHookInput) (processCwd : JStr) (now : Nat),
      (parseHookInput parsed processCwd now).project
        = getProjectName (parseHookInput parsed processCwd now).cwd)
    ∧ (∀ (processCwd : JStr) (now : Nat),
        parseHookInput none processCwd now
          = { sessionId := sessionIdFallback now, cwd := processCwd
              project := getProjectName processCwd, prompt := none, toolName := none
              toolInput := none, toolResponse := none, transcriptPath := none
              stopReason := none, timestamp := now })
    ∧ (∀ p : JStr, p = [] ∨ (∃ c ∈ p.getLast?, isSep c) →
        getProjectName p = "unknown".toList)
    ∧ (∀ p : JStr, p ≠ [] → (∀ c ∈ p.getLast?, ¬ isSep c) →
        getProjectName p = lastSegment p ∧ lastSegment p ≠ []) := by
  refine ⟨?_, ?_, ?_, ?_⟩
  · intro parsed pcwd now
    cases parsed <;> rfl
  · intro pcwd now
    rfl
  · intro p h
    exact (getProjectName_spec p).1 h
  · intro p h1 h2
    exact (getProjectName_spec p).2 h1 h2

/-- Witness for C6 at concrete paths: a separator-free tail and a
trailing-separator path. -/
theorem c6_parseHookInput_never_throws_witness :
    getProjectName "a/b".toList = lastSegment "a/b".toList
    ∧ getProjectName "a/b/".toList = "unknown".toList :=
  ⟨(c6_parseHookInput_never_throws.2.2.2 "a/b".toList (by decide)
      (fun c hc => by simp at hc; subst hc; decide)).1,
   c6_parseHookInput_never_throws.2.2.1 "a/b/".toList
     (Or.inr ⟨'/', by decide, by decide⟩)⟩

/-- C7: when the enrichment oracle is unavailable, throws, times out or
produces no parseable answer, `enrichWithAI` yields `none` and
`storeObservation` still succeeds, storing exactly the deterministic
template values for subtitle, narrative, facts and concepts; when the
oracle does answer, `parseAIResponse` caps facts at 5 entries of at most
200 characters and concepts at 5 entries of at most 50 characters. -/
theorem c7_enrichment_fallback_and_caps :
    (enrichWithAI .unavailable = none ∧ enrichWithAI .thrown = none
      ∧ enrichWithAI .timedOut = none ∧ enrichWithAI .emptyResult = none)
    ∧ (∀ (st : ServiceState) (tmpl : Templates) (sid project toolName : JStr)
        (ti tr : Option Json) (cwd : JStr) (now : Nat),
        ∃ row : ObsRow,
          (storeObservation st tmpl none sid project toolName ti tr cwd now).observations
            = st.observations ++ [row]
          ∧ row.subtitle = tmpl.subtitle toolName ti tr
          ∧ row.narrative = tmpl.narrative toolName ti tr
          ∧ row.facts = tmpl.facts toolName ti tr
          ∧ row.concepts = tmpl.concepts toolName ti tr)
    ∧ (∀ (j : Option Json) (r : EnrichedObservation), parseAIResponse j = some r →
        r.facts.length ≤ 5 ∧ (∀ f ∈ r.facts, f.length ≤ 200)
        ∧ r.concepts.length ≤ 5 ∧ (∀ c ∈ r.concepts, c.length ≤ 50)) := by
  refine ⟨⟨rfl, rfl, rfl, rfl⟩, ?_, ?_⟩
  · intro st tmpl sid project toolName ti tr cwd now
    exact ⟨_, rfl, rfl, rfl, rfl, rfl⟩
  · intro j r h
    cases j with
    | none => simp [parseAIResponse] at h
    | some p =>
      simp only [parseAIResponse] at h
      split at h
      · rw [Option.some_inj] at h
        subst h
        refine ⟨?_, ?_, ?_, ?_⟩
        · simp only [List.length_map]
          exact List.length_take_le 5 _
        · intro f hf
          rw [List.mem_map] at hf
          obtain ⟨x, _, hx⟩ := hf
          rw [← hx]
          exact List.length_take_le 200 _
        · simp only [List.length_map]
          exact List.length_take_le 5 _
        · intro c hc
          rw [List.mem_map] at hc
          obtain ⟨x, _, hx⟩ := hc
          rw [← hx]
          exact List.length_take_le 50 _
      · exact absurd h (by simp)

/-- Witness for C7: the caps hold for a concrete parsed oracle answer. -/
theorem c7_enrichment_fallback_and_caps_witness :
    c7Answer.facts.length ≤ 5
    ∧ (∀ f ∈ c7Answer.facts, f.length ≤ 200)
    ∧ c7Answer.concepts.length ≤ 5
    ∧ (∀ c ∈ c7Answer.concepts, c.length ≤ 50) :=
  c7_enrichment_fallback_and_caps.2.2 (some c7AiJson) c7Answer (by decide)

/-- C8: every hook handler's `execute` returns a result with
`continue = true` for every input and every service outcome (including
thrown exceptions), and for every hook event the CLI leaves a response
envelope on stdout rather than blocking the host. -/
theorem c8_hooks_never_block :
    (∀ (input : NormalizedHookInput) (body : Except JStr Unit),
      (observationHookResult input body).cont = true)
    ∧ (∀ body : Except JStr JStr, (contextHookResult body).cont = true)
    ∧ (∀ body : Except JStr Unit, (sessionInitHookResult body).cont = true)
    ∧ (∀ body : Except JStr Unit, (summarizeHookResult body).cont = true)
    ∧ (∀ (ev : JStr) (fatalThrown : Bool) (input : NormalizedHookInput)
        (ctxBody : Except JStr JStr) (initBody obsBody sumBody : Except JStr Unit)
        (umr : Except JStr HookResult),
        ev ≠ [] → ev ≠ "enrich".toList →
        ∃ r : Response, cliMain (some ev) fatalThrown input ctxBody initBody obsBody
          sumBody umr = .response r) := by
  refine ⟨?_, ?_, ?_, ?_, ?_⟩
  · intro input body
    unfold observationHookResult
    cases input.toolName with
    | none => rfl
    | some t =>
      dsimp only
      cases body <;> split_ifs <;> rfl
  · intro body
    unfold contextHookResult
    cases body with
    | ok markdown =>
      dsimp only
      split_ifs <;> rfl
    | error e => rfl
  · intro body
    cases body <;> rfl
  · intro body
    cases body <;> rfl
  · intro ev fatalThrown input ctxBody initBody obsBody sumBody umr hemp hev
    unfold cliMain
    dsimp only
    rw [if_neg hemp, if_neg hev]
    split_ifs <;> first
      | exact ⟨_, rfl⟩
      | (cases umr <;> exact ⟨_, rfl⟩)

/-- Witness for C8: the CLI emits an envelope for a concrete
`observation` invocation. -/
theorem c8_hooks_never_block_witness :
    ∃ r : Response, cliMain (some "observation".toList) false c8Input (.ok [])
      (.ok ()) (.ok ()) (.ok ()) (.ok standardResult) = .response r :=
  c8_hooks_never_block.2.2.2.2 "observation".toList false c8Input (.ok [])
    (.ok ()) (.ok ()) (.ok ()) (.ok standardResult) (by decide) (by decide)

/-- C4 counterexample: the claim reads the `completed` line as the
session's per-type observation counts, but `generateStructuredSummary`
fetches at most the 50 most recent observations.  For the concrete
session above (1 prompt, 1 old `Write`, 50 newer `Read`s) the code
produces `"50 file(s) read"` while the per-type counts of the session's
observations read `"1 file(s) modified, 50 file(s) read"`. -/
theorem c4_structured_summary_counterexample :
    getSessionPrompts c4CexState "S".toList ≠ []
    ∧ (generateStructuredSummary c4CexState "S".toList).completed
        ≠ specCompletedLine (sessionObsAll c4CexState "S".toList) := by
  exact ⟨by decide, by decide⟩

/-- C4 (amended): for every session with at least one prompt, the
structured summary's `request` is the prompts in ascending
`promptNumber`, rendered `[#n] <text truncated to 200>` and joined by
`" → "`, then truncated to 500 characters by `truncate`; `completed`
lists the per-type counts *of the fetched window (the at most 50 most
recent observations)* in the order modified, read, executed, searches;
`filesRead`/`filesModified` hold the unique extracted paths of the
window, capped at 20 each; and `notes` holds at most 5 commands, each
already truncated to 80 characters. -/
theorem c4_structured_summary_spec (st : ServiceState) (sid : JStr)
    (hP : getSessionPrompts st sid ≠ []) :
    (generateStructuredSummary st sid).request
      = truncateStr (joinSep " → ".toList ((getSessionPrompts st sid).map promptRender)) 500
    ∧ List.Sorted promptLe (getSessionPrompts st sid)
    ∧ (generateStructuredSummary st sid).completed
        = specCompletedLine (getSessionObservations st sid)
    ∧ (getSessionObservations st sid).length ≤ 50
    ∧ (generateStructuredSummary st sid).filesRead
        = (dedupKeepFirst ((getSessionObservations st sid).filterMap readSel)).take 20
    ∧ (generateStructuredSummary st sid).filesRead.Nodup
    ∧ (generateStructuredSummary st sid).filesRead.length ≤ 20
    ∧ (generateStructuredSummary st sid).filesModified
        = (dedupKeepFirst ((getSessionObservations st sid).filterMap writeSel)).take 20
    ∧ (generateStructuredSummary st sid).filesModified.Nodup
    ∧ (generateStructuredSummary st sid).filesModified.length ≤ 20
    ∧ (generateStructuredSummary st sid).notes
        = notesLine ((getSessionObservations st sid).filterMap cmdSel)
    ∧ (∀ c ∈ (getSessionObservations st sid).filterMap cmdSel, c.length ≤ 80) := by
  have hfold := summaryFold_eq (getSessionObservations st sid)
  refine ⟨?_, ?_, ?_, ?_, ?_, ?_, ?_, ?_, ?_, ?_, ?_, ?_⟩
  · show truncateStr (if getSessionPrompts st sid ≠ [] then _ else _) 500 = _
    rw [if_pos hP]
    rfl
  · exact List.sorted_insertionSort promptLe _
  · show completedLine (getSessionObservations st sid) = _
    exact completedLine_eq_spec _
  · exact List.length_take_le 50 _
  · show ((summaryFold (getSessionObservations st sid)).1).take 20 = _
    rw [hfold]
  · show (((summaryFold (getSessionObservations st sid)).1).take 20).Nodup
    rw [hfold]
    exact ((nodup_foldl_addSet _ [] (by simp)).sublist (List.take_sublist _ _))
  · exact List.length_take_le 20 _
  · show ((summaryFold (getSessionObservations st sid)).2.1).take 20 = _
    rw [hfold]
  · show (((summaryFold (getSessionObservations st sid)).2.1).take 20).Nodup
    rw [hfold]
    exact ((nodup_foldl_addSet _ [] (by simp)).sublist (List.take_sublist _ _))
  · exact List.length_take_le 20 _
  · show (if (summaryFold (getSessionObservations st sid)).2.2 ≠ [] then _ else _)
        = notesLine _
    rw [hfold]
    rfl
  · intro c hc
    rw [List.mem_filterMap] at hc
    obtain ⟨o, _, ho⟩ := hc
    unfold cmdSel at ho
    split at ho
    · rw [Option.some_inj] at ho
      rw [← ho]
      exact List.length_take_le 80 _
    · exact absurd ho (by simp)

/-- Witness for C4 at the concrete state above. -/
theorem c4_structured_summary_spec_witness :
    getSessionPrompts c4WitnessState "S".toList ≠ []
    ∧ ((generateStructuredSummary c4WitnessState "S".toList).request
      = truncateStr (joinSep " → ".toList
          ((getSessionPrompts c4WitnessState "S".toList).map promptRender)) 500
    ∧ List.Sorted promptLe (getSessionPrompts c4WitnessState "S".toList)
    ∧ (generateStructuredSummary c4WitnessState "S".toList).completed
        = specCompletedLine (getSessionObservations c4WitnessState "S".toList)
    ∧ (getSessionObservations c4WitnessState "S".toList).length ≤ 50
    ∧ (generateStructuredSummary c4WitnessState "S".toList).filesRead
        = (dedupKeepFirst ((getSessionObservations c4WitnessState "S".toList).filterMap
            readSel)).take 20
    ∧ (generateStructuredSummary c4WitnessState "S".toList).filesRead.Nodup
    ∧ (generateStructuredSummary c4WitnessState "S".toList).filesRead.length ≤ 20
    ∧ (generateStructuredSummary c4WitnessState "S".toList).filesModified
        = (dedupKeepFirst ((getSessionObservations c4WitnessState "S".toList).filterMap
            writeSel)).take 20
    ∧ (generateStructuredSummary c4WitnessState "S".toList).filesModified.Nodup
    ∧ (generateStructuredSummary c4WitnessState "S".toList).filesModified.length ≤ 20
    ∧ (generateStructuredSummary c4WitnessState "S".toList).notes
        = notesLine ((getSessionObservations c4WitnessState "S".toList).filterMap cmdSel)
    ∧ (∀ c ∈ (getSessionObservations c4WitnessState "S".toList).filterMap cmdSel,
        c.length ≤ 80)) :=
  ⟨by decide, c4_structured_summary_spec c4WitnessState "S".toList (by decide)⟩

/-- C9 counterexample: the claim emits a section entry for every section
whose content is *at least* 100 characters, but the code requires
*strictly more than* 100 (`section.content.length > 100`).  A file with
one section of exactly 100 characters yields 1 entry, not the claimed
2. -/
theorem c9_markdown_entries_counterexample :
    (markdownToEntries c9Ids "notes".toList c9CexParsed).length
      ≠ 1 + (c9CexParsed.sections.filter (fun s => decide (100 ≤ s.content.length))).length := by
  decide

/-- C9 (amended): for every markdown file, the migration emits one
top-level entry plus one entry per section whose content is strictly
longer than 100 characters, and every section entry's `references`
contains the parent entry's id. -/
theorem c9_markdown_entries (ids : Nat → JStr) (filename : JStr) (parsed : ParsedMarkdown) :
    (markdownToEntries ids filename parsed).length
      = 1 + (parsed.sections.filter (fun s => decide (100 < s.content.length))).length
    ∧ ∀ e ∈ (markdownToEntries ids filename parsed).drop 1, ids 0 ∈ e.references := by
  constructor
  · unfold markdownToEntries
    simp only [List.length_cons]
    rw [(sectionEntries_spec ids filename filename (ids 0) parsed.sections 1).1]
    omega
  · intro e he
    unfold markdownToEntries at he
    rw [show (1 : Nat) = 0 + 1 from rfl, List.drop_succ_cons, List.drop_zero] at he
    rw [(sectionEntries_spec ids filename filename (ids 0) parsed.sections 1).2 e he]
    simp

set_option maxRecDepth 100000 in
/-- Witness for C9: the emitted section entry of a concrete file
references the parent entry. -/
theorem c9_markdown_entries_witness :
    ((markdownToEntries c9Ids "notes".toList c9WitnessParsed).getD 1 c9EntryDflt)
        ∈ (markdownToEntries c9Ids "notes".toList c9WitnessParsed).drop 1
    ∧ c9Ids 0 ∈ ((markdownToEntries c9Ids "notes".toList c9WitnessParsed).getD 1
        c9EntryDflt).references :=
  ⟨by decide,
   (c9_markdown_entries c9Ids "notes".toList c9WitnessParsed).2 _ (by decide)⟩

/-- C10 counterexample: the claim holds the count invariant after *any*
sequence of hook-service operations, but `storeObservation` does not
create the session row (the SQLite foreign key is not enforced), so
storing an observation for a not-yet-existing session and then calling
`initSession` leaves a session row with `observation_count = 0` next to
one observation row. -/
theorem c10_observation_count_counterexample :
    ¬ (∀ s ∈ (runOps defaultTemplates initialState c10CexOps).sessions,
        s.observationCount
          = obsCount (runOps defaultTemplates initialState c10CexOps) s.sessionId) := by
  decide

/-- C10 (amended): for every operation sequence in which each
`storeObservation` targets an already-existing session (as the
observation hook guarantees by calling `initSession` first), every
session row's `observation_count` equals the number of its observation
rows; moreover each `storeObservation` adds exactly one observation row
to its session. -/
theorem c10_observation_count_invariant (tmpl : Templates) (ops : List Op)
    (hok : okOps tmpl initialState ops = true) :
    (∀ s ∈ (runOps tmpl initialState ops).sessions,
      s.observationCount = obsCount (runOps tmpl initialState ops) s.sessionId)
    ∧ ∀ (ai : Option EnrichedObservation) (sid project toolName : JStr)
        (ti tr : Option Json) (cwd : JStr) (now : Nat),
        obsCount (storeObservation (runOps tmpl initialState ops) tmpl ai sid project
          toolName ti tr cwd now) sid
          = obsCount (runOps tmpl initialState ops) sid + 1 := by
  constructor
  · exact (countStateInv_runOps tmpl ops initialState countStateInv_initial hok).1
  · intro ai sid project toolName ti tr cwd now
    unfold obsCount storeObservation
    simp only [List.filter_append, List.length_append]
    have hone : ∀ (row : ObsRow), row.sessionId = sid →
        (List.filter (fun o => decide (o.sessionId = sid)) [row]).length = 1 := by
      intro row hrow
      simp [List.filter, hrow]
    split <;> rw [hone _ rfl]

/-- Witness for C10 at the concrete well-formed history. -/
theorem c10_observation_count_invariant_witness :
    okOps defaultTemplates initialState c10WitnessOps = true
    ∧ ∀ s ∈ (runOps defaultTemplates initialState c10WitnessOps).sessions,
        s.observationCount
          = obsCount (runOps defaultTemplates initialState c10WitnessOps) s.sessionId :=
  ⟨by decide,
   (c10_observation_count_invariant defaultTemplates c10WitnessOps (by decide)).1⟩

end AgentKits

